import Mathlib

/-!
Verification of the insurance-fund accounting core
(src/programs/clearing_house/src/controller/insurance.rs).

The Rust code is shallowly embedded: u64/u128 quantities become Nat, i64/i128
become Int, and every checked arithmetic operation of the source is modelled by
an Option-valued helper that fails exactly when the Rust operation would return
None (overflow, underflow, division by zero, failed cast).  Each public
operation of the controller is a function from its inputs and account state to
a result that carries the final account state even on the error path, because
the Rust functions mutate their accounts in place through mutable references
and an early return leaves earlier mutations visible to the caller.

Functions of the repository that the controller calls but that are not part of
the provided source (the math helpers and the account-struct methods) are
modelled from the specification; each such definition carries a doc comment
saying so.  External collaborator values (token amounts, validated balances,
net pnl) are passed as explicit parameters, as the specification prescribes.
-/

/-- Error codes distinguished by the controller.  DefaultError covers the
validate! precondition failures, MathError the checked-arithmetic failures
produced by the math_error macro, and the two named codes are the ones the
source raises explicitly. -/
inductive ErrorCode where
  | DefaultError
  | MathError
  | TryingToRemoveLiquidityTooFast
  | InsufficientLPTokens
deriving DecidableEq

/-- Result of an operation on account state sigma: the final state is visible
both on success and on failure, mirroring in-place mutation through mutable
references in the source. -/
inductive CResult (σ : Type) (α : Type) where
  | ok (a : α) (s : σ)
  | err (e : ErrorCode) (s : σ)
deriving DecidableEq

def CResult.state : CResult σ α → σ
  | .ok _ s => s
  | .err _ s => s

def CResult.isOk : CResult σ α → Bool
  | .ok _ _ => true
  | .err _ _ => false

def CResult.val? : CResult σ α → Option α
  | .ok a _ => some a
  | .err _ _ => none

def U64_MAX_PLUS_ONE : Nat := 2 ^ 64

def U128_MAX_PLUS_ONE : Nat := 2 ^ 128

def I64_BOUND : Int := 2 ^ 63

def I128_BOUND : Int := 2 ^ 127

/-- u128 checked_add. -/
def checked_add_u128 (a b : Nat) : Option Nat :=
  if a + b < U128_MAX_PLUS_ONE then some (a + b) else none

/-- u64/u128 checked_sub (underflow check). -/
def checked_sub_nat (a b : Nat) : Option Nat :=
  if b ≤ a then some (a - b) else none

/-- u64 checked_mul. -/
def checked_mul_u64 (a b : Nat) : Option Nat :=
  if a * b < U64_MAX_PLUS_ONE then some (a * b) else none

/-- checked_div on unsigned integers: fails only on a zero divisor. -/
def checked_div_nat (a b : Nat) : Option Nat :=
  if b = 0 then none else some (a / b)

/-- i64 checked_sub: fails when the mathematical difference leaves i64. -/
def checked_sub_i64 (a b : Int) : Option Int :=
  if -I64_BOUND ≤ a - b ∧ a - b < I64_BOUND then some (a - b) else none

/-- i64 checked_add. -/
def checked_add_i64 (a b : Int) : Option Int :=
  if -I64_BOUND ≤ a + b ∧ a + b < I64_BOUND then some (a + b) else none

/-- i128 checked_sub. -/
def checked_sub_i128 (a b : Int) : Option Int :=
  if -I128_BOUND ≤ a - b ∧ a - b < I128_BOUND then some (a - b) else none

/-- i128 checked_add. -/
def checked_add_i128 (a b : Int) : Option Int :=
  if -I128_BOUND ≤ a + b ∧ a + b < I128_BOUND then some (a + b) else none

/-- cast_to_u64 from an unsigned value. -/
def cast_to_u64 (n : Nat) : Option Nat :=
  if n < U64_MAX_PLUS_ONE then some n else none

/-- cast_to_i64 from an unsigned value: defined on the Nat side so that the
bound check stays kernel-reducible. -/
def cast_to_i64 (n : Nat) : Option Int :=
  if n < 2 ^ 63 then some (Int.ofNat n) else none

/-- cast_to_i128 from a u128 value: defined on the Nat side so that the
bound check stays kernel-reducible. -/
def cast_to_i128_of_u128 (n : Nat) : Option Int :=
  if n < 2 ^ 127 then some (Int.ofNat n) else none

/-- cast_to_u64 from an i128 value. -/
def cast_to_u64_of_i128 (x : Int) : Option Nat :=
  if 0 ≤ x ∧ x < (U64_MAX_PLUS_ONE : Nat) then some x.toNat else none

/-- cast_to_u64 from an i64 value (used on the revenue settle period). -/
def cast_to_u64_of_i64 (x : Int) : Option Nat :=
  if 0 ≤ x then some x.toNat else none

/-- Per-asset pool state: the spot market fields the insurance-fund controller
reads and writes.  revenue_pool_token_amount models the external
collaborator value get_token_amount(revenue_pool.balance, ..) as a scalar
carried in the state, per the specification's external-interface section. -/
structure SpotMarket where
  market_index : Nat
  total_if_shares : Nat
  user_if_shares : Nat
  if_shares_base : Nat
  insurance_withdraw_escrow_period : Int
  revenue_settle_period : Int
  last_revenue_settle_ts : Int
  user_if_factor : Nat
  total_if_factor : Nat
  revenue_pool_token_amount : Nat
deriving DecidableEq

/-- Per-depositor stake record. -/
structure InsuranceFundStake where
  if_shares : Nat
  if_base : Nat
  cost_basis : Int
  last_withdraw_request_shares : Nat
  last_withdraw_request_value : Nat
  last_withdraw_request_ts : Int
deriving DecidableEq

/-- The slice of UserStats the controller writes. -/
structure UserStats where
  staked_quote_asset_amount : Nat
deriving DecidableEq

/-- The accounts a stake-lifecycle operation owns for the duration of a call. -/
structure Accounts where
  stake : InsuranceFundStake
  user_stats : UserStats
  spot_market : SpotMarket
deriving DecidableEq

/-- Perp-market state read and mutated by resolve_perp_pnl_deficit.
net_user_pnl models the external collaborator calculate_net_user_pnl(amm,
last_oracle_price) and pnl_pool_token_amount the external
get_token_amount(pnl_pool.balance, ..), both carried as scalars per the
specification's external-interface section. -/
structure PerpMarket where
  market_index : Nat
  total_fee_minus_distributions : Int
  unrealized_max_imbalance : Nat
  net_user_pnl : Int
  pnl_pool_token_amount : Nat
  max_revenue_withdraw_per_period : Nat
  revenue_withdraw_since_last_settle : Nat
  quote_max_insurance : Nat
  quote_settled_insurance : Nat
  last_revenue_withdraw_ts : Int
deriving DecidableEq

/-- Modelled from the spec: vault_amount_to_if_shares (math::insurance, not in
the provided sources).  shares_for_amount(amount, total_shares, balance): if
total_shares == 0 it returns amount (1:1 seeding), else
floor(amount * total_shares / balance), failing on a zero balance or on u128
overflow of the product, the arithmetic-fault class of the specification. -/
def vault_amount_to_if_shares (amount total_shares balance : Nat) : Option Nat :=
  if total_shares = 0 then some amount
  else if balance = 0 then none
  else if amount * total_shares < U128_MAX_PLUS_ONE then
    some (amount * total_shares / balance)
  else none

/-- Modelled from the spec: if_shares_to_vault_amount (math::insurance, not in
the provided sources).  amount_for_shares(shares, total_shares, balance):
0 when total_shares == 0, else floor(shares * balance / total_shares), failing
on u128 overflow of the product or if the result does not fit u64. -/
def if_shares_to_vault_amount (shares total_shares balance : Nat) : Option Nat :=
  if total_shares = 0 then some 0
  else if shares * balance < U128_MAX_PLUS_ONE then
    (if shares * balance / total_shares < U64_MAX_PLUS_ONE then
      some (shares * balance / total_shares)
    else none)
  else none

/-- Fuel-indexed search for the smallest power-of-ten exponent k with
total / 10^k ≤ balance. -/
def rebase_expo_fuel : Nat → Nat → Nat → Nat
  | 0, _, _ => 0
  | fuel + 1, total, balance =>
    if total ≤ balance then 0
    else rebase_expo_fuel fuel (total / 10) balance + 1

/-- Modelled from the spec: calculate_rebase_info (math::insurance, not in the
provided sources).  Returns the minimal decimal exponent k (and the divisor
10^k) such that total_shares / 10^k ≤ balance; 64 fuel steps suffice for any
u128 share count. -/
def calculate_rebase_info (total_if_shares insurance_fund_vault_balance : Nat) :
    Nat × Nat :=
  let expo := rebase_expo_fuel 64 total_if_shares insurance_fund_vault_balance
  (expo, 10 ^ expo)

/-- Modelled from the spec: the checked_if_shares accessor of the stake-record
struct (state::insurance_fund_stake, not in the provided sources): the share
count may only be read when the record's base matches the pool's. -/
def checked_if_shares (st : InsuranceFundStake) (m : SpotMarket) : Option Nat :=
  if st.if_base = m.if_shares_base then some st.if_shares else none

/-- Modelled from the spec: increase_if_shares of the stake-record struct:
validates the base, then adds with u128 checked arithmetic. -/
def increase_if_shares (st : InsuranceFundStake) (n : Nat) (m : SpotMarket) :
    Except ErrorCode InsuranceFundStake :=
  if st.if_base = m.if_shares_base then
    match checked_add_u128 st.if_shares n with
    | some s => .ok { st with if_shares := s }
    | none => .error .MathError
  else .error .DefaultError

/-- Modelled from the spec: decrease_if_shares of the stake-record struct:
validates the base, then subtracts with checked arithmetic. -/
def decrease_if_shares (st : InsuranceFundStake) (n : Nat) (m : SpotMarket) :
    Except ErrorCode InsuranceFundStake :=
  if st.if_base = m.if_shares_base then
    match checked_sub_nat st.if_shares n with
    | some s => .ok { st with if_shares := s }
    | none => .error .MathError
  else .error .DefaultError

/-- Modelled from the spec: calculate_if_shares_lost (math::insurance, not in
the provided sources).  Shares lost to drift since the request: when the
pending shares' recomputed value exceeds the frozen request value, the request
only deserves the share count that the frozen value corresponds to in the
post-withdraw pool, and the difference is lost. -/
def calculate_if_shares_lost (st : InsuranceFundStake) (m : SpotMarket)
    (insurance_vault_amount : Nat) : Except ErrorCode Nat :=
  match if_shares_to_vault_amount st.last_withdraw_request_shares
      m.total_if_shares insurance_vault_amount with
  | none => .error .MathError
  | some amount =>
    if st.last_withdraw_request_value < amount then
      match checked_sub_nat m.total_if_shares st.last_withdraw_request_shares with
      | none => .error .MathError
      | some remaining_shares =>
        match checked_sub_nat insurance_vault_amount st.last_withdraw_request_value with
        | none => .error .MathError
        | some remaining_balance =>
          match vault_amount_to_if_shares st.last_withdraw_request_value
              remaining_shares remaining_balance with
          | none => .error .MathError
          | some new_n_shares =>
            if new_n_shares ≤ st.last_withdraw_request_shares then
              .ok (st.last_withdraw_request_shares - new_n_shares)
            else .error .DefaultError
    else .ok 0

/-- apply_rebase_to_insurance_fund: when the vault balance is nonzero and
below total_if_shares, divide total and user shares by the minimal power of
ten bringing total at or below the balance and bump the share base; a pool
left with zero total shares against a nonzero balance is re-seeded 1:1. -/
def apply_rebase_to_insurance_fund (insurance_fund_vault_balance : Nat)
    (m : SpotMarket) : CResult SpotMarket Unit :=
  if insurance_fund_vault_balance ≠ 0 ∧
      insurance_fund_vault_balance < m.total_if_shares then
    let info := calculate_rebase_info m.total_if_shares insurance_fund_vault_balance
    let m2 := { m with
      total_if_shares := m.total_if_shares / info.2
      user_if_shares := m.user_if_shares / info.2 }
    match checked_add_u128 m2.if_shares_base info.1 with
    | none => .err .MathError m2
    | some b =>
      let m3 := { m2 with if_shares_base := b }
      if insurance_fund_vault_balance ≠ 0 ∧ m3.total_if_shares = 0 then
        .ok () { m3 with total_if_shares := insurance_fund_vault_balance }
      else .ok () m3
  else
    if insurance_fund_vault_balance ≠ 0 ∧ m.total_if_shares = 0 then
      .ok () { m with total_if_shares := insurance_fund_vault_balance }
    else .ok () m

/-- apply_rebase_to_insurance_fund_stake: when the record's base lags the
pool's, rescale its shares and pending-withdraw shares by the base
difference's power of ten; a record base ahead of the pool's is an invariant
violation. -/
def apply_rebase_to_insurance_fund_stake (st : InsuranceFundStake)
    (m : SpotMarket) : CResult InsuranceFundStake Unit :=
  if m.if_shares_base ≠ st.if_base then
    if st.if_base < m.if_shares_base then
      let expo_diff := m.if_shares_base - st.if_base
      if expo_diff < 2 ^ 32 then
        let rebase_divisor := 10 ^ expo_diff
        let st1 := { st with if_base := m.if_shares_base }
        let new_if_shares := st1.if_shares / rebase_divisor
        if st1.if_base = m.if_shares_base then
          let st2 := { st1 with if_shares := new_if_shares }
          let st3 := { st2 with
            last_withdraw_request_shares :=
              st2.last_withdraw_request_shares / rebase_divisor }
          .ok () st3
        else .err .DefaultError st1
      else .err .MathError st
    else .err .DefaultError st
  else .ok () st

/-- The pool rebase followed by the stake rebase, the prologue every
stake-lifecycle operation of the source runs. -/
def apply_rebases (insurance_vault_amount : Nat) (a : Accounts) :
    CResult Accounts Unit :=
  match apply_rebase_to_insurance_fund insurance_vault_amount a.spot_market with
  | .err e m1 => .err e { a with spot_market := m1 }
  | .ok _ m1 =>
    match apply_rebase_to_insurance_fund_stake a.stake m1 with
    | .err e st1 => .err e { a with stake := st1, spot_market := m1 }
    | .ok _ st1 => .ok () { a with stake := st1, spot_market := m1 }

/-- Credit phase of add_insurance_fund_stake: with the share conversion and
cost basis cb already computed, credits n_shares to the record and both pool
totals and refreshes the staked-amount statistic on market zero. -/
def add_insurance_fund_stake_credit (amount insurance_vault_amount n_shares : Nat)
    (cb : Int) (a1 : Accounts) : CResult Accounts Unit :=
  match increase_if_shares { a1.stake with cost_basis := cb } n_shares
      a1.spot_market with
  | .error e => .err e { a1 with stake := { a1.stake with cost_basis := cb } }
  | .ok st3 =>
    match checked_add_u128 a1.spot_market.total_if_shares n_shares with
    | none => .err .MathError { a1 with stake := st3 }
    | some t =>
      match checked_add_u128 a1.spot_market.user_if_shares n_shares with
      | none => .err .MathError
          { a1 with
            stake := st3
            spot_market := { a1.spot_market with total_if_shares := t } }
      | some u =>
        if a1.spot_market.market_index = 0 then
          match checked_if_shares st3 { a1.spot_market with
              total_if_shares := t, user_if_shares := u } with
          | none => .err .DefaultError
              { a1 with
                stake := st3
                spot_market := { a1.spot_market with
                  total_if_shares := t, user_if_shares := u } }
          | some cs =>
            match checked_add_u128 insurance_vault_amount amount with
            | none => .err .MathError
                { a1 with
                  stake := st3
                  spot_market := { a1.spot_market with
                    total_if_shares := t, user_if_shares := u } }
            | some vb =>
              if vb < U64_MAX_PLUS_ONE then
                match if_shares_to_vault_amount cs t vb with
                | none => .err .MathError
                    { a1 with
                      stake := st3
                      spot_market := { a1.spot_market with
                        total_if_shares := t, user_if_shares := u } }
                | some sq => .ok ()
                    { stake := st3
                      user_stats := { staked_quote_asset_amount := sq }
                      spot_market := { a1.spot_market with
                        total_if_shares := t, user_if_shares := u } }
              else .err .MathError
                { a1 with
                  stake := st3
                  spot_market := { a1.spot_market with
                    total_if_shares := t, user_if_shares := u } }
        else .ok ()
          { a1 with
            stake := st3
            spot_market := { a1.spot_market with
              total_if_shares := t, user_if_shares := u } }

/-- add_insurance_fund_stake: deposit into the fund.  Fails when joining a
zero-balance fund with outstanding shares; otherwise rebases, converts the
amount to shares, resets or accrues cost basis, and credits the shares to the
record and to both pool totals. -/
def add_insurance_fund_stake (amount insurance_vault_amount : Nat)
    (a : Accounts) (_now : Int) : CResult Accounts Unit :=
  if insurance_vault_amount = 0 ∧ a.spot_market.total_if_shares ≠ 0 then
    .err .DefaultError a
  else
    match apply_rebases insurance_vault_amount a with
    | .err e a1 => .err e a1
    | .ok _ a1 =>
      match checked_if_shares a1.stake a1.spot_market with
      | none => .err .DefaultError a1
      | some if_shares_before =>
        match vault_amount_to_if_shares amount a1.spot_market.total_if_shares
            insurance_vault_amount with
        | none => .err .MathError a1
        | some n_shares =>
          match (if if_shares_before = 0 then cast_to_i64 amount
            else match cast_to_i64 amount with
              | none => none
              | some x => checked_add_i64 a1.stake.cost_basis x) with
          | none => .err .MathError a1
          | some cb =>
            add_insurance_fund_stake_credit amount insurance_vault_amount
              n_shares cb a1

/-- Stamp phase of request_remove_insurance_fund_stake: with the sufficiency
and base validations passed and the current value amt of the pending shares
computed, freezes the request value, validates it against the balance,
refreshes the staked statistic and stamps the request timestamp. -/
def request_remove_insurance_fund_stake_stamp (insurance_vault_amount amt cis : Nat)
    (a1 : Accounts) (now : Int) : CResult Accounts Unit :=
  if min amt (insurance_vault_amount - 1) = 0 ∨
      min amt (insurance_vault_amount - 1) < insurance_vault_amount then
    if a1.spot_market.market_index = 0 then
      match if_shares_to_vault_amount cis a1.spot_market.total_if_shares
          insurance_vault_amount with
      | none => .err .MathError
          { a1 with stake := { a1.stake with
            last_withdraw_request_value := min amt (insurance_vault_amount - 1) } }
      | some sq =>
        .ok () { a1 with
          user_stats := { staked_quote_asset_amount := sq }
          stake := { a1.stake with
            last_withdraw_request_value := min amt (insurance_vault_amount - 1)
            last_withdraw_request_ts := now } }
    else .ok () { a1 with
      stake := { a1.stake with
        last_withdraw_request_value := min amt (insurance_vault_amount - 1)
        last_withdraw_request_ts := now } }
  else .err .DefaultError
    { a1 with stake := { a1.stake with
      last_withdraw_request_value := min amt (insurance_vault_amount - 1) } }

/-- request_remove_insurance_fund_stake: stores the requested share count in
the record before any validation, rebases (which rescales the stored pending
shares), checks sufficiency against the post-rebase share count, freezes the
request value at min(current value of the pending shares, balance - 1) with a
saturating subtraction, and stamps the request timestamp last. -/
def request_remove_insurance_fund_stake (n_shares insurance_vault_amount : Nat)
    (a : Accounts) (now : Int) : CResult Accounts Unit :=
  match apply_rebases insurance_vault_amount
      { a with stake :=
        { a.stake with last_withdraw_request_shares := n_shares } } with
  | .err e a1 => .err e a1
  | .ok _ a1 =>
    match checked_if_shares a1.stake a1.spot_market with
    | none => .err .DefaultError a1
    | some cis =>
      if a1.stake.last_withdraw_request_shares ≤ cis then
        if a1.stake.if_base = a1.spot_market.if_shares_base then
          match if_shares_to_vault_amount a1.stake.last_withdraw_request_shares
              a1.spot_market.total_if_shares insurance_vault_amount with
          | none => .err .MathError a1
          | some amt =>
            request_remove_insurance_fund_stake_stamp insurance_vault_amount
              amt cis a1 now
        else .err .DefaultError a1
      else .err .DefaultError a1

/-- Burn phase of cancel_request_remove_insurance_fund_stake: burns the
computed lost shares from the record and both pool totals and clears the
pending fields. -/
def cancel_request_remove_insurance_fund_stake_burn
    (insurance_vault_amount if_shares_lost : Nat) (a1 : Accounts) (now : Int) :
    CResult Accounts Unit :=
  match decrease_if_shares a1.stake if_shares_lost a1.spot_market with
  | .error e => .err e a1
  | .ok st2 =>
    match checked_sub_nat a1.spot_market.total_if_shares if_shares_lost with
    | none => .err .MathError { a1 with stake := st2 }
    | some t =>
      match checked_sub_nat a1.spot_market.user_if_shares if_shares_lost with
      | none => .err .MathError
          { a1 with
            stake := st2
            spot_market := { a1.spot_market with total_if_shares := t } }
      | some u =>
        match checked_if_shares st2 { a1.spot_market with
            total_if_shares := t, user_if_shares := u } with
        | none => .err .DefaultError
            { a1 with
              stake := st2
              spot_market := { a1.spot_market with
                total_if_shares := t, user_if_shares := u } }
        | some if_shares_after =>
          if a1.spot_market.market_index = 0 then
            match if_shares_to_vault_amount if_shares_after t
                insurance_vault_amount with
            | none => .err .MathError
                { a1 with
                  stake := st2
                  spot_market := { a1.spot_market with
                    total_if_shares := t, user_if_shares := u } }
            | some sq => .ok ()
                { stake := { st2 with
                    last_withdraw_request_shares := 0
                    last_withdraw_request_value := 0
                    last_withdraw_request_ts := now }
                  user_stats := { staked_quote_asset_amount := sq }
                  spot_market := { a1.spot_market with
                    total_if_shares := t, user_if_shares := u } }
          else .ok ()
            { a1 with
              stake := { st2 with
                last_withdraw_request_shares := 0
                last_withdraw_request_value := 0
                last_withdraw_request_ts := now }
              spot_market := { a1.spot_market with
                total_if_shares := t, user_if_shares := u } }

/-- cancel_request_remove_insurance_fund_stake: rebases, requires a pending
request, burns the shares lost to drift since the request from the record and
from both pool totals, and clears the pending fields. -/
def cancel_request_remove_insurance_fund_stake (insurance_vault_amount : Nat)
    (a : Accounts) (now : Int) : CResult Accounts Unit :=
  match apply_rebases insurance_vault_amount a with
  | .err e a1 => .err e a1
  | .ok _ a1 =>
    match checked_if_shares a1.stake a1.spot_market with
    | none => .err .DefaultError a1
    | some _if_shares_before =>
      if a1.stake.if_base = a1.spot_market.if_shares_base then
        if a1.stake.last_withdraw_request_shares ≠ 0 then
          match calculate_if_shares_lost a1.stake a1.spot_market
              insurance_vault_amount with
          | .error e => .err e a1
          | .ok if_shares_lost =>
            cancel_request_remove_insurance_fund_stake_burn
              insurance_vault_amount if_shares_lost a1 now
        else .err .DefaultError a1
      else .err .DefaultError a1

/-- Settle phase of remove_insurance_fund_stake: with the recomputed current
value amount of the pending shares in hand, pays min(amount, frozen value),
burns the pending shares from the record and both pool totals, debits the
cost basis and clears the pending fields. -/
def remove_insurance_fund_stake_settle (insurance_vault_amount amount : Nat)
    (a1 : Accounts) (now : Int) : CResult Accounts Nat :=
  match decrease_if_shares a1.stake a1.stake.last_withdraw_request_shares
      a1.spot_market with
  | .error e => .err e a1
  | .ok st2 =>
    match cast_to_i64 (min amount a1.stake.last_withdraw_request_value) with
    | none => .err .MathError { a1 with stake := st2 }
    | some wa =>
      match checked_sub_i64 st2.cost_basis wa with
      | none => .err .MathError { a1 with stake := st2 }
      | some cb =>
        match checked_sub_nat a1.spot_market.total_if_shares
            a1.stake.last_withdraw_request_shares with
        | none => .err .MathError
            { a1 with stake := { st2 with cost_basis := cb } }
        | some t =>
          match checked_sub_nat a1.spot_market.user_if_shares
              a1.stake.last_withdraw_request_shares with
          | none => .err .MathError
              { a1 with
                stake := { st2 with cost_basis := cb }
                spot_market := { a1.spot_market with total_if_shares := t } }
          | some u =>
            if a1.spot_market.market_index = 0 then
              match checked_if_shares
                  { st2 with
                    cost_basis := cb
                    last_withdraw_request_shares := 0
                    last_withdraw_request_value := 0
                    last_withdraw_request_ts := now }
                  { a1.spot_market with
                    total_if_shares := t, user_if_shares := u } with
              | none => .err .DefaultError
                  { a1 with
                    stake := { st2 with
                      cost_basis := cb
                      last_withdraw_request_shares := 0
                      last_withdraw_request_value := 0
                      last_withdraw_request_ts := now }
                    spot_market := { a1.spot_market with
                      total_if_shares := t, user_if_shares := u } }
              | some if_shares_after =>
                match checked_sub_nat insurance_vault_amount amount with
                | none => .err .MathError
                    { a1 with
                      stake := { st2 with
                        cost_basis := cb
                        last_withdraw_request_shares := 0
                        last_withdraw_request_value := 0
                        last_withdraw_request_ts := now }
                      spot_market := { a1.spot_market with
                        total_if_shares := t, user_if_shares := u } }
                | some vb =>
                  match if_shares_to_vault_amount if_shares_after t vb with
                  | none => .err .MathError
                      { a1 with
                        stake := { st2 with
                          cost_basis := cb
                          last_withdraw_request_shares := 0
                          last_withdraw_request_value := 0
                          last_withdraw_request_ts := now }
                        spot_market := { a1.spot_market with
                          total_if_shares := t, user_if_shares := u } }
                  | some sq =>
                    .ok (min amount a1.stake.last_withdraw_request_value)
                      { stake := { st2 with
                          cost_basis := cb
                          last_withdraw_request_shares := 0
                          last_withdraw_request_value := 0
                          last_withdraw_request_ts := now }
                        user_stats := { staked_quote_asset_amount := sq }
                        spot_market := { a1.spot_market with
                          total_if_shares := t, user_if_shares := u } }
            else
              .ok (min amount a1.stake.last_withdraw_request_value)
                { a1 with
                  stake := { st2 with
                    cost_basis := cb
                    last_withdraw_request_shares := 0
                    last_withdraw_request_value := 0
                    last_withdraw_request_ts := now }
                  spot_market := { a1.spot_market with
                    total_if_shares := t, user_if_shares := u } }

/-- remove_insurance_fund_stake: settles a pending withdrawal.  The escrow
check on the raw timestamps comes first; the payout is the smaller of the
pending shares' recomputed current value and the frozen request value; the
pending shares are burned from the record and both pool totals, the cost
basis is debited by the payout, and the pending fields are cleared. -/
def remove_insurance_fund_stake (insurance_vault_amount : Nat)
    (a : Accounts) (now : Int) : CResult Accounts Nat :=
  match checked_sub_i64 now a.stake.last_withdraw_request_ts with
  | none => .err .MathError a
  | some time_since_withdraw_request =>
    if time_since_withdraw_request <
        a.spot_market.insurance_withdraw_escrow_period then
      .err .TryingToRemoveLiquidityTooFast a
    else
      match apply_rebases insurance_vault_amount a with
      | .err e a1 => .err e a1
      | .ok _ a1 =>
        match checked_if_shares a1.stake a1.spot_market with
        | none => .err .DefaultError a1
        | some if_shares_before =>
          if 0 < a1.stake.last_withdraw_request_shares then
            if a1.stake.last_withdraw_request_shares ≤ if_shares_before then
              match if_shares_to_vault_amount a1.stake.last_withdraw_request_shares
                  a1.spot_market.total_if_shares insurance_vault_amount with
              | none => .err .MathError a1
              | some amount =>
                match calculate_if_shares_lost a1.stake a1.spot_market
                    insurance_vault_amount with
                | .error e => .err e a1
                | .ok _if_shares_lost =>
                  remove_insurance_fund_stake_settle insurance_vault_amount
                    amount a1 now
            else .err .InsufficientLPTokens a1
          else .err .DefaultError a1

/-- Modelled from the spec: the global revenue-settlement constants
(math::constants, not in the provided sources).  Their values are not given by
the specification, so they are carried as parameters. -/
structure RevenueConstants where
  max_apr_numerator : Nat
  max_apr_precision : Nat
  one_year : Nat
  rev_share_numerator : Nat
  rev_share_denominator : Nat
deriving DecidableEq

/-- Modelled from the spec: get_proportion_u128 (math::helpers, not in the
provided sources): floor(value * numerator / denominator) with u128 checked
arithmetic. -/
def get_proportion_u128 (value numerator denominator : Nat) : Option Nat :=
  if value * numerator < U128_MAX_PLUS_ONE then
    (if denominator = 0 then none else some (value * numerator / denominator))
  else none

/-- The annualized-rate ceiling of settle_revenue_to_insurance_fund exactly as
the source computes it: successive u64 checked divisions by the precision, by
ONE_YEAR and then by the settle period. -/
def capped_apr_amount (k : RevenueConstants) (insurance_vault_amount : Nat)
    (revenue_settle_period : Int) : Option Nat :=
  match checked_mul_u64 insurance_vault_amount k.max_apr_numerator with
  | none => none
  | some a =>
    match checked_div_nat a k.max_apr_precision with
    | none => none
    | some b =>
      match cast_to_u64 k.one_year with
      | none => none
      | some y =>
        match checked_div_nat b y with
        | none => none
        | some c =>
          match cast_to_u64_of_i64 revenue_settle_period with
          | none => none
          | some p => checked_div_nat c p

/-- Mint phase of settle_revenue_to_insurance_fund: with the transferable
amount fixed, stamps the settle timestamp, mints the protocol cohort's
portion as new total shares and debits the revenue pool. -/
def settle_revenue_to_insurance_fund_mint (_k : RevenueConstants)
    (insurance_fund_token_amount insurance_vault_amount : Nat)
    (m : SpotMarket) (now : Int) : CResult SpotMarket Nat :=
  match checked_sub_nat m.total_if_factor m.user_if_factor with
  | none => .err .MathError { m with last_revenue_settle_ts := now }
  | some protocol_if_factor =>
    match cast_to_u64 protocol_if_factor with
    | none => .err .MathError { m with last_revenue_settle_ts := now }
    | some pf =>
      match checked_mul_u64 insurance_fund_token_amount pf with
      | none => .err .MathError { m with last_revenue_settle_ts := now }
      | some x =>
        match cast_to_u64 m.total_if_factor with
        | none => .err .MathError { m with last_revenue_settle_ts := now }
        | some tf =>
          match checked_div_nat x tf with
          | none => .err .MathError { m with last_revenue_settle_ts := now }
          | some y =>
            match vault_amount_to_if_shares y m.total_if_shares
                insurance_vault_amount with
            | none => .err .MathError { m with last_revenue_settle_ts := now }
            | some n_shares =>
              match checked_add_u128 m.total_if_shares n_shares with
              | none => .err .MathError { m with last_revenue_settle_ts := now }
              | some t =>
                match checked_sub_nat m.revenue_pool_token_amount
                    insurance_fund_token_amount with
                | none => .err .MathError
                    { m with
                      last_revenue_settle_ts := now
                      total_if_shares := t }
                | some r =>
                  .ok insurance_fund_token_amount
                    { m with
                      last_revenue_settle_ts := now
                      total_if_shares := t
                      revenue_pool_token_amount := r }

/-- settle_revenue_to_insurance_fund: moves a capped portion of the revenue
pool into the insurance fund.  depositors_claim is the external collaborator
value validate_spot_market_amounts(spot_market, spot_market_vault_amount).
When the depositors' claim is below the revenue-pool token amount the
transferable amount is halved to the claim's half; when depositor shares
exist the amount is further capped by the annualized-rate ceiling; the
protocol cohort's portion of the transferred amount is minted as new total
(not user) shares. -/
def settle_revenue_to_insurance_fund (k : RevenueConstants)
    (depositors_claim _spot_market_vault_amount insurance_vault_amount : Nat)
    (m : SpotMarket) (now : Int) : CResult SpotMarket Nat :=
  if 0 < m.revenue_settle_period then
    if m.user_if_factor ≤ m.total_if_factor then
      match (if 0 < m.user_if_shares then
          match capped_apr_amount k insurance_vault_amount m.revenue_settle_period with
          | none => none
          | some c => some (min (if depositors_claim < m.revenue_pool_token_amount
              then depositors_claim / 2 else m.revenue_pool_token_amount) c)
        else some (if depositors_claim < m.revenue_pool_token_amount
          then depositors_claim / 2 else m.revenue_pool_token_amount)) with
      | none => .err .MathError m
      | some token_amount =>
        match get_proportion_u128 token_amount k.rev_share_numerator
            k.rev_share_denominator with
        | none => .err .MathError m
        | some p =>
          match cast_to_u64 p with
          | none => .err .MathError m
          | some insurance_fund_token_amount =>
            if insurance_fund_token_amount ≠ 0 then
              settle_revenue_to_insurance_fund_mint k
                insurance_fund_token_amount insurance_vault_amount m now
            else .err .DefaultError m
    else .err .DefaultError m
  else .err .DefaultError m

/-- Draw phase of resolve_perp_pnl_deficit: with the four-way minimum
insurance_withdraw validated positive, credits it to the market's
fee-minus-distributions total, both withdrawal counters and the pnl pool. -/
def resolve_perp_pnl_deficit_draw (insurance_withdraw : Int)
    (bank : SpotMarket) (market : PerpMarket) (now : Int) :
    CResult (SpotMarket × PerpMarket) Nat :=
  match checked_add_i128 market.total_fee_minus_distributions
      insurance_withdraw with
  | none => .err .MathError (bank, market)
  | some tfmd =>
    match checked_add_u128 market.revenue_withdraw_since_last_settle
        insurance_withdraw.toNat with
    | none => .err .MathError
        (bank, { market with total_fee_minus_distributions := tfmd })
    | some rv =>
      match checked_add_u128 market.quote_settled_insurance
          insurance_withdraw.toNat with
      | none => .err .MathError
          (bank, { market with
            total_fee_minus_distributions := tfmd
            revenue_withdraw_since_last_settle := rv })
      | some qs =>
        if qs ≤ market.quote_max_insurance then
          match cast_to_u64_of_i128 insurance_withdraw with
          | none => .err .MathError
              (bank, { market with
                total_fee_minus_distributions := tfmd
                revenue_withdraw_since_last_settle := rv
                quote_settled_insurance := qs
                last_revenue_withdraw_ts := now
                pnl_pool_token_amount :=
                  market.pnl_pool_token_amount + insurance_withdraw.toNat })
          | some w => .ok w
              (bank, { market with
                total_fee_minus_distributions := tfmd
                revenue_withdraw_since_last_settle := rv
                quote_settled_insurance := qs
                last_revenue_withdraw_ts := now
                pnl_pool_token_amount :=
                  market.pnl_pool_token_amount + insurance_withdraw.toNat })
        else .err .DefaultError
          (bank, { market with
            total_fee_minus_distributions := tfmd
            revenue_withdraw_since_last_settle := rv
            quote_settled_insurance := qs })

/-- resolve_perp_pnl_deficit: draws from the insurance fund to cover a perp
market's pnl deficit.  Requires a negative fee-minus-distributions total and a
drained pnl pool; the draw is the minimum of the excess pnl imbalance, the
remaining per-period revenue-withdraw allowance, the remaining lifetime
insurance allowance, and the vault balance less one, and must be positive. -/
def resolve_perp_pnl_deficit (_bank_vault_amount insurance_vault_amount : Nat)
    (bank : SpotMarket) (market : PerpMarket) (now : Int) :
    CResult (SpotMarket × PerpMarket) Nat :=
  if market.total_fee_minus_distributions < 0 then
    if market.pnl_pool_token_amount = 0 then
      match (if 0 < market.unrealized_max_imbalance then
          match cast_to_i128_of_u128 market.unrealized_max_imbalance with
          | none => none
          | some mi => checked_sub_i128 market.net_user_pnl mi
        else some 0) with
      | none => .err .MathError (bank, market)
      | some excess_user_pnl_imbalance =>
        if 0 < excess_user_pnl_imbalance then
          match checked_sub_nat market.max_revenue_withdraw_per_period
              market.revenue_withdraw_since_last_settle with
          | none => .err .MathError (bank, market)
          | some mrw0 =>
            match cast_to_i128_of_u128 mrw0 with
            | none => .err .MathError (bank, market)
            | some max_revenue_withdraw_per_period =>
              if 0 < max_revenue_withdraw_per_period then
                match checked_sub_nat market.quote_max_insurance
                    market.quote_settled_insurance with
                | none => .err .MathError (bank, market)
                | some miw0 =>
                  match cast_to_i128_of_u128 miw0 with
                  | none => .err .MathError (bank, market)
                  | some max_insurance_withdraw =>
                    if 0 < max_insurance_withdraw then
                      if 0 < min (min (min excess_user_pnl_imbalance
                            max_revenue_withdraw_per_period) max_insurance_withdraw)
                          ((insurance_vault_amount - 1 : Nat) : Int) then
                        resolve_perp_pnl_deficit_draw
                          (min (min (min excess_user_pnl_imbalance
                            max_revenue_withdraw_per_period) max_insurance_withdraw)
                          ((insurance_vault_amount - 1 : Nat) : Int)) bank market now
                      else .err .DefaultError (bank, market)
                    else .err .DefaultError (bank, market)
              else .err .DefaultError (bank, market)
        else .err .DefaultError (bank, market)
    else .err .DefaultError (bank, market)
  else .err .DefaultError (bank, market)

/-- Pool fixture for the basic settle scenario (mirrors basic_stake_if_test):
one depositor owning the whole pool at balance 1000000. -/
def mkt_c1 : SpotMarket :=
  { market_index := 0, total_if_shares := 1000000, user_if_shares := 1000000,
    if_shares_base := 0, insurance_withdraw_escrow_period := 0,
    revenue_settle_period := 1, last_revenue_settle_ts := 0,
    user_if_factor := 0, total_if_factor := 1, revenue_pool_token_amount := 0 }

/-- Stake fixture for the basic settle scenario: full withdrawal requested,
frozen value 999999. -/
def stk_c1 : InsuranceFundStake :=
  { if_shares := 1000000, if_base := 0, cost_basis := 1000000,
    last_withdraw_request_shares := 1000000,
    last_withdraw_request_value := 999999, last_withdraw_request_ts := 0 }

def acct_c1 : Accounts :=
  { stake := stk_c1, user_stats := { staked_quote_asset_amount := 0 },
    spot_market := mkt_c1 }

/-- Settle-revenue fixture constants with a unit revenue share so the
transferable amount is directly observable. -/
def k_c2 : RevenueConstants :=
  { max_apr_numerator := 0, max_apr_precision := 1, one_year := 1,
    rev_share_numerator := 1, rev_share_denominator := 1 }

/-- Pool whose revenue-pool token amount (4) is below the depositors claim
(10) used against C2: the source applies no halving here. -/
def mkt_c2 : SpotMarket :=
  { market_index := 0, total_if_shares := 10, user_if_shares := 0,
    if_shares_base := 0, insurance_withdraw_escrow_period := 0,
    revenue_settle_period := 1, last_revenue_settle_ts := 0,
    user_if_factor := 0, total_if_factor := 1, revenue_pool_token_amount := 4 }

/-- Constants for the APR-cap scenario: a 100 percent APR at precision 10000,
a 100-second year and unit revenue share. -/
def k_c3 : RevenueConstants :=
  { max_apr_numerator := 10000, max_apr_precision := 10000, one_year := 100,
    rev_share_numerator := 1, rev_share_denominator := 1 }

/-- Pool with depositor shares and a 10-second settle period for the APR-cap
scenario. -/
def mkt_c3 : SpotMarket :=
  { market_index := 0, total_if_shares := 1000, user_if_shares := 5,
    if_shares_base := 0, insurance_withdraw_escrow_period := 0,
    revenue_settle_period := 10, last_revenue_settle_ts := 0,
    user_if_factor := 0, total_if_factor := 1,
    revenue_pool_token_amount := 1000000 }

/-- Pool for the failed-request scenario: 10 total shares, 5 depositor
shares. -/
def mkt_c4 : SpotMarket :=
  { market_index := 1, total_if_shares := 10, user_if_shares := 5,
    if_shares_base := 0, insurance_withdraw_escrow_period := 0,
    revenue_settle_period := 1, last_revenue_settle_ts := 0,
    user_if_factor := 0, total_if_factor := 1, revenue_pool_token_amount := 0 }

/-- Record owning 5 shares with no pending request; a request for 7 shares
must fail its sufficiency validation. -/
def stk_c4 : InsuranceFundStake :=
  { if_shares := 5, if_base := 0, cost_basis := 1000,
    last_withdraw_request_shares := 0, last_withdraw_request_value := 0,
    last_withdraw_request_ts := 0 }

def acct_c4 : Accounts :=
  { stake := stk_c4, user_stats := { staked_quote_asset_amount := 0 },
    spot_market := mkt_c4 }

/-- Pool that a request against a balance of 10 forces to rebase (1000 shares
against 10 tokens). -/
def mkt_c5 : SpotMarket :=
  { market_index := 1, total_if_shares := 1000, user_if_shares := 1000,
    if_shares_base := 0, insurance_withdraw_escrow_period := 0,
    revenue_settle_period := 1, last_revenue_settle_ts := 0,
    user_if_factor := 0, total_if_factor := 1, revenue_pool_token_amount := 0 }

def stk_c5 : InsuranceFundStake :=
  { if_shares := 1000, if_base := 0, cost_basis := 1000,
    last_withdraw_request_shares := 0, last_withdraw_request_value := 0,
    last_withdraw_request_ts := 0 }

def acct_c5 : Accounts :=
  { stake := stk_c5, user_stats := { staked_quote_asset_amount := 0 },
    spot_market := mkt_c5 }

/-- Bank fixture for the deficit scenario. -/
def bank_c6 : SpotMarket :=
  { market_index := 0, total_if_shares := 10, user_if_shares := 0,
    if_shares_base := 0, insurance_withdraw_escrow_period := 0,
    revenue_settle_period := 1, last_revenue_settle_ts := 0,
    user_if_factor := 0, total_if_factor := 1, revenue_pool_token_amount := 0 }

/-- Perp market in deficit: excess imbalance 15, per-period allowance 60 left,
lifetime allowance 40 left. -/
def perp_c6 : PerpMarket :=
  { market_index := 0, total_fee_minus_distributions := -5,
    unrealized_max_imbalance := 10, net_user_pnl := 25,
    pnl_pool_token_amount := 0, max_revenue_withdraw_per_period := 100,
    revenue_withdraw_since_last_settle := 40, quote_max_insurance := 50,
    quote_settled_insurance := 10, last_revenue_withdraw_ts := 0 }

/-- Pool for the failing-settle scenario whose user shares exceed what the
total can cover after the pending burn. -/
def mkt_c7 : SpotMarket :=
  { market_index := 1, total_if_shares := 10, user_if_shares := 5,
    if_shares_base := 0, insurance_withdraw_escrow_period := 0,
    revenue_settle_period := 1, last_revenue_settle_ts := 0,
    user_if_factor := 0, total_if_factor := 1, revenue_pool_token_amount := 0 }

/-- Record with 7 shares pending against a pool holding only 5 depositor
shares: settling burns 7 from total, then fails subtracting from user. -/
def stk_c7 : InsuranceFundStake :=
  { if_shares := 7, if_base := 0, cost_basis := 100,
    last_withdraw_request_shares := 7, last_withdraw_request_value := 5,
    last_withdraw_request_ts := 0 }

def acct_c7 : Accounts :=
  { stake := stk_c7, user_stats := { staked_quote_asset_amount := 0 },
    spot_market := mkt_c7 }

/-- Deposit fixture for the C7 witness: an empty pool receiving a first
stake. -/
def acct_c7w : Accounts :=
  { stake :=
      { if_shares := 0, if_base := 0, cost_basis := 0,
        last_withdraw_request_shares := 0, last_withdraw_request_value := 0,
        last_withdraw_request_ts := 0 },
    user_stats := { staked_quote_asset_amount := 0 },
    spot_market :=
      { market_index := 1, total_if_shares := 0, user_if_shares := 0,
        if_shares_base := 0, insurance_withdraw_escrow_period := 0,
        revenue_settle_period := 1, last_revenue_settle_ts := 0,
        user_if_factor := 0, total_if_factor := 1,
        revenue_pool_token_amount := 0 } }

/-- Pool with a 50-second escrow period for the boundary-settle scenario. -/
def mkt_c8 : SpotMarket :=
  { market_index := 1, total_if_shares := 1000, user_if_shares := 1000,
    if_shares_base := 0, insurance_withdraw_escrow_period := 50,
    revenue_settle_period := 1, last_revenue_settle_ts := 0,
    user_if_factor := 0, total_if_factor := 1, revenue_pool_token_amount := 0 }

/-- Valid pending request stamped at 100 against the 50-second escrow pool:
settling at exactly 150 succeeds. -/
def stk_c8 : InsuranceFundStake :=
  { if_shares := 1000, if_base := 0, cost_basis := 1000,
    last_withdraw_request_shares := 400, last_withdraw_request_value := 300,
    last_withdraw_request_ts := 100 }

def acct_c8 : Accounts :=
  { stake := stk_c8, user_stats := { staked_quote_asset_amount := 0 },
    spot_market := mkt_c8 }

/-- Request stamped at the largest i64 timestamp: against now at the smallest
i64 value the timestamp subtraction overflows. -/
def stk_c8x : InsuranceFundStake :=
  { if_shares := 1000, if_base := 0, cost_basis := 1000,
    last_withdraw_request_shares := 400, last_withdraw_request_value := 300,
    last_withdraw_request_ts := 2 ^ 63 - 1 }

def acct_c8x : Accounts :=
  { stake := stk_c8x, user_stats := { staked_quote_asset_amount := 0 },
    spot_market := mkt_c8 }

/-- Drained-pool fixture (mirrors drained_stake_if_test_rebase_on_old_remove_all
at reduced scale): zero vault balance, pending request frozen at value 0. -/
def mkt_c10 : SpotMarket :=
  { market_index := 1, total_if_shares := 100, user_if_shares := 80,
    if_shares_base := 0, insurance_withdraw_escrow_period := 0,
    revenue_settle_period := 1, last_revenue_settle_ts := 0,
    user_if_factor := 0, total_if_factor := 1, revenue_pool_token_amount := 0 }

def stk_c10 : InsuranceFundStake :=
  { if_shares := 80, if_base := 0, cost_basis := 100,
    last_withdraw_request_shares := 80, last_withdraw_request_value := 0,
    last_withdraw_request_ts := 0 }

def acct_c10 : Accounts :=
  { stake := stk_c10, user_stats := { staked_quote_asset_amount := 0 },
    spot_market := mkt_c10 }

theorem apply_rebase_fund_base_mono (v : Nat) (m : SpotMarket) :
    m.if_shares_base ≤ (apply_rebase_to_insurance_fund v m).state.if_shares_base := by
  unfold apply_rebase_to_insurance_fund
  dsimp only
  split
  · split
    · simp [CResult.state]
    · rename_i b hb
      unfold checked_add_u128 at hb
      split at hb
      · simp only [Option.some.injEq] at hb
        split <;> simp [CResult.state] <;> omega
      · simp at hb
  · split <;> simp [CResult.state]

theorem apply_rebase_fund_inv (v : Nat) (m : SpotMarket)
    (h : m.user_if_shares ≤ m.total_if_shares) :
    (apply_rebase_to_insurance_fund v m).state.user_if_shares ≤
      (apply_rebase_to_insurance_fund v m).state.total_if_shares := by
  have hd : m.user_if_shares / (calculate_rebase_info m.total_if_shares v).2 ≤
      m.total_if_shares / (calculate_rebase_info m.total_if_shares v).2 :=
    Nat.div_le_div_right h
  unfold apply_rebase_to_insurance_fund
  dsimp only
  split
  · split
    · simpa [CResult.state] using hd
    · split
      · rename_i hz
        simp only [CResult.state]
        have h0 : m.total_if_shares / (calculate_rebase_info m.total_if_shares v).2 = 0 :=
          hz.2
        have h1 : m.user_if_shares / (calculate_rebase_info m.total_if_shares v).2 = 0 :=
          Nat.le_zero.mp (h0 ▸ hd)
        simp [h1]
      · simpa [CResult.state] using hd
  · split
    · rename_i hz
      simp only [CResult.state]
      have h1 : m.user_if_shares = 0 := Nat.le_zero.mp (hz.2 ▸ h)
      simp [h1]
    · simpa [CResult.state] using h

theorem apply_rebase_stake_ok (st st1 : InsuranceFundStake) (m : SpotMarket)
    (h : apply_rebase_to_insurance_fund_stake st m = .ok () st1) :
    st.if_base ≤ m.if_shares_base ∧
    st1.if_base = m.if_shares_base ∧
    st1.if_shares = st.if_shares / 10 ^ (m.if_shares_base - st.if_base) ∧
    st1.last_withdraw_request_shares =
      st.last_withdraw_request_shares / 10 ^ (m.if_shares_base - st.if_base) ∧
    st1.last_withdraw_request_value = st.last_withdraw_request_value ∧
    st1.last_withdraw_request_ts = st.last_withdraw_request_ts ∧
    st1.cost_basis = st.cost_basis := by
  unfold apply_rebase_to_insurance_fund_stake at h
  dsimp only at h
  split at h
  · split at h
    · split at h
      · split at h
        · rename_i hne hlt _ _
          simp only [CResult.ok.injEq, true_and] at h
          subst h
          exact ⟨le_of_lt hlt, rfl, rfl, rfl, rfl, rfl, rfl⟩
        · exact absurd h (by simp)
      · exact absurd h (by simp)
    · exact absurd h (by simp)
  · rename_i he
    simp only [CResult.ok.injEq, true_and] at h
    subst h
    have hb : m.if_shares_base = st.if_base := by
      by_contra hc
      exact he hc
    simp [hb]

theorem apply_rebase_fund_ok_base (v : Nat) (m m1 : SpotMarket)
    (h : apply_rebase_to_insurance_fund v m = .ok () m1) :
    m.if_shares_base ≤ m1.if_shares_base := by
  have hmono := apply_rebase_fund_base_mono v m
  rw [h] at hmono
  simpa [CResult.state] using hmono

theorem apply_rebases_ok (v : Nat) (a a1 : Accounts)
    (h : apply_rebases v a = .ok () a1) :
    a1.stake.if_base = a1.spot_market.if_shares_base ∧
    a.spot_market.if_shares_base ≤ a1.spot_market.if_shares_base ∧
    a.stake.if_base ≤ a1.spot_market.if_shares_base ∧
    a1.stake.last_withdraw_request_shares =
      a.stake.last_withdraw_request_shares /
        10 ^ (a1.spot_market.if_shares_base - a.stake.if_base) ∧
    a1.stake.last_withdraw_request_value = a.stake.last_withdraw_request_value ∧
    a1.stake.last_withdraw_request_ts = a.stake.last_withdraw_request_ts ∧
    a1.stake.cost_basis = a.stake.cost_basis ∧
    a1.user_stats = a.user_stats := by
  unfold apply_rebases at h
  split at h
  · exact absurd h (by simp)
  · rename_i u m1 hm
    split at h
    · exact absurd h (by simp)
    · rename_i u2 st1 hst
      simp only [CResult.ok.injEq, true_and] at h
      subst h
      obtain ⟨h1, h2, h3, h4, h5, h6, h7⟩ := apply_rebase_stake_ok _ _ _ hst
      exact ⟨h2, apply_rebase_fund_ok_base v a.spot_market m1 hm, h1, h4, h5, h6, h7, rfl⟩

/-- C9: for every amount, total share count and positive balance, converting a
deposit to shares with vault_amount_to_if_shares and converting the resulting
shares straight back with if_shares_to_vault_amount on the same totals never
returns more than the original amount: rounding never creates value.  The
total_shares = 0 seeding cases (shares 1:1, amount 0) are included. -/
theorem claim_c9_roundtrip (amount total_shares balance s v : Nat)
    (hb : 0 < balance)
    (h1 : vault_amount_to_if_shares amount total_shares balance = some s)
    (h2 : if_shares_to_vault_amount s total_shares balance = some v) :
    v ≤ amount := by
  unfold vault_amount_to_if_shares at h1
  unfold if_shares_to_vault_amount at h2
  split at h2
  · simp only [Option.some.injEq] at h2
    omega
  · rename_i ht
    split at h2
    · split at h2
      · simp only [Option.some.injEq] at h2
        rw [if_neg ht] at h1
        rw [if_neg (show ¬ balance = 0 by omega)] at h1
        split at h1
        · simp only [Option.some.injEq] at h1
          subst h1
          subst h2
          have hmul : amount * total_shares / balance * balance ≤ amount * total_shares :=
            Nat.div_mul_le_self (amount * total_shares) balance
          have hdiv : amount * total_shares / balance * balance / total_shares ≤
              amount * total_shares / total_shares :=
            Nat.div_le_div_right hmul
          have hcancel : amount * total_shares / total_shares = amount :=
            Nat.mul_div_cancel amount (Nat.pos_of_ne_zero ht)
          exact le_trans hdiv (le_of_eq hcancel)
        · exact absurd h1 (by simp)
      · exact absurd h2 (by simp)
    · exact absurd h2 (by simp)

/-- Witness for C9 at amount 7, total shares 3, balance 2: the deposit becomes
10 shares, which convert back to 6, at most the original 7. -/
theorem claim_c9_roundtrip_witness :
    0 < 2 ∧ vault_amount_to_if_shares 7 3 2 = some 10 ∧
    if_shares_to_vault_amount 10 3 2 = some 6 ∧ 6 ≤ 7 :=
  ⟨by decide, by decide, by decide,
    claim_c9_roundtrip 7 3 2 10 6 (by decide) (by decide) (by decide)⟩

theorem checked_sub_nat_some (a b c : Nat) (h : checked_sub_nat a b = some c) :
    c = a - b ∧ b ≤ a := by
  unfold checked_sub_nat at h
  split at h
  · simp only [Option.some.injEq] at h
    exact ⟨h.symm, by assumption⟩
  · exact absurd h (by simp)

theorem checked_add_u128_some (a b c : Nat) (h : checked_add_u128 a b = some c) :
    c = a + b := by
  unfold checked_add_u128 at h
  split at h
  · simp only [Option.some.injEq] at h
    exact h.symm
  · exact absurd h (by simp)

theorem cast_to_i64_some (n : Nat) (x : Int) (h : cast_to_i64 n = some x) :
    x = (n : Int) := by
  unfold cast_to_i64 at h
  split at h
  · simp only [Option.some.injEq] at h
    exact h.symm
  · exact absurd h (by simp)

theorem checked_sub_i64_some (a b x : Int) (h : checked_sub_i64 a b = some x) :
    x = a - b := by
  unfold checked_sub_i64 at h
  split at h
  · simp only [Option.some.injEq] at h
    exact h.symm
  · exact absurd h (by simp)

theorem checked_if_shares_some (st : InsuranceFundStake) (m : SpotMarket)
    (n : Nat) (h : checked_if_shares st m = some n) :
    n = st.if_shares ∧ st.if_base = m.if_shares_base := by
  unfold checked_if_shares at h
  split at h
  · simp only [Option.some.injEq] at h
    exact ⟨h.symm, by assumption⟩
  · exact absurd h (by simp)

theorem decrease_if_shares_ok (st st2 : InsuranceFundStake) (n : Nat)
    (m : SpotMarket) (h : decrease_if_shares st n m = .ok st2) :
    st2 = { st with if_shares := st.if_shares - n } ∧ n ≤ st.if_shares := by
  unfold decrease_if_shares at h
  split at h
  · split at h
    · rename_i s hs
      obtain ⟨h1, h2⟩ := checked_sub_nat_some _ _ _ hs
      simp only [Except.ok.injEq] at h
      subst h
      exact ⟨by rw [h1], h2⟩
    · exact absurd h (by simp)
  · exact absurd h (by simp)

theorem increase_if_shares_ok (st st2 : InsuranceFundStake) (n : Nat)
    (m : SpotMarket) (h : increase_if_shares st n m = .ok st2) :
    st2 = { st with if_shares := st.if_shares + n } := by
  unfold increase_if_shares at h
  split at h
  · split at h
    · rename_i s hs
      have h1 := checked_add_u128_some _ _ _ hs
      simp only [Except.ok.injEq] at h
      subst h
      rw [h1]
    · exact absurd h (by simp)
  · exact absurd h (by simp)




theorem remove_settle_ok (vault amount : Nat) (a1 : Accounts) (now : Int)
    (v : Nat) (a2 : Accounts)
    (h : remove_insurance_fund_stake_settle vault amount a1 now = .ok v a2) :
    v = min amount a1.stake.last_withdraw_request_value ∧
    a2.stake.if_shares =
      a1.stake.if_shares - a1.stake.last_withdraw_request_shares ∧
    a2.spot_market.total_if_shares =
      a1.spot_market.total_if_shares - a1.stake.last_withdraw_request_shares ∧
    a2.spot_market.user_if_shares =
      a1.spot_market.user_if_shares - a1.stake.last_withdraw_request_shares ∧
    a2.stake.cost_basis = a1.stake.cost_basis - (v : Int) ∧
    a2.stake.last_withdraw_request_shares = 0 ∧
    a2.stake.last_withdraw_request_value = 0 ∧
    a2.stake.last_withdraw_request_ts = now ∧
    a1.stake.last_withdraw_request_shares ≤ a1.stake.if_shares := by
  unfold remove_insurance_fund_stake_settle at h
  split at h
  · exact CResult.noConfusion h
  · rename_i st2 hdec
    split at h
    · exact CResult.noConfusion h
    · rename_i wa hcast
      split at h
      · exact CResult.noConfusion h
      · rename_i cb hcost
        split at h
        · exact CResult.noConfusion h
        · rename_i t htot
          split at h
          · exact CResult.noConfusion h
          · rename_i u2 huser
            obtain ⟨hdec1, hdec2⟩ := decrease_if_shares_ok _ _ _ _ hdec
            have hcast1 := cast_to_i64_some _ _ hcast
            have hcost1 := checked_sub_i64_some _ _ _ hcost
            obtain ⟨htot1, _⟩ := checked_sub_nat_some _ _ _ htot
            obtain ⟨huser1, _⟩ := checked_sub_nat_some _ _ _ huser
            split at h
            · split at h
              · exact CResult.noConfusion h
              · rename_i isa hcis2
                split at h
                · exact CResult.noConfusion h
                · rename_i vb hvb
                  split at h
                  · exact CResult.noConfusion h
                  · rename_i sq hsq
                    simp only [CResult.ok.injEq] at h
                    obtain ⟨hv, ha2⟩ := h
                    subst hv
                    subst ha2
                    refine ⟨rfl, ?_, ?_, ?_, ?_, rfl, rfl, rfl, hdec2⟩
                    · simp [hdec1]
                    · simp [htot1]
                    · simp [huser1]
                    · simp [hdec1, hcost1, hcast1]
            · simp only [CResult.ok.injEq] at h
              obtain ⟨hv, ha2⟩ := h
              subst hv
              subst ha2
              refine ⟨rfl, ?_, ?_, ?_, ?_, rfl, rfl, rfl, hdec2⟩
              · simp [hdec1]
              · simp [htot1]
              · simp [huser1]
              · simp [hdec1, hcost1, hcast1]

/-- C1: every successful settle (remove_insurance_fund_stake) happens with the
escrow elapsed and, relative to the post-rebase state a1 produced by the same
rebases the call performs, with pending shares n positive and record shares at
least n; it returns exactly min(amount_for_shares(n, total, balance), frozen
pending value), burns exactly n shares from the record, the pool total and
the depositor total, debits the cost basis by the payout, clears both pending
fields and stamps the request timestamp to now. -/
theorem claim_c1_settle_withdraw_effects (vault : Nat) (a : Accounts)
    (now : Int) (v : Nat) (a2 : Accounts)
    (h : remove_insurance_fund_stake vault a now = .ok v a2) :
    a.spot_market.insurance_withdraw_escrow_period ≤
      now - a.stake.last_withdraw_request_ts ∧
    ∃ a1, apply_rebases vault a = .ok () a1 ∧
      0 < a1.stake.last_withdraw_request_shares ∧
      a1.stake.last_withdraw_request_shares ≤ a1.stake.if_shares ∧
      (∃ amt, if_shares_to_vault_amount a1.stake.last_withdraw_request_shares
          a1.spot_market.total_if_shares vault = some amt ∧
        v = min amt a1.stake.last_withdraw_request_value) ∧
      a2.stake.if_shares =
        a1.stake.if_shares - a1.stake.last_withdraw_request_shares ∧
      a2.spot_market.total_if_shares =
        a1.spot_market.total_if_shares - a1.stake.last_withdraw_request_shares ∧
      a2.spot_market.user_if_shares =
        a1.spot_market.user_if_shares - a1.stake.last_withdraw_request_shares ∧
      a2.stake.cost_basis = a1.stake.cost_basis - (v : Int) ∧
      a2.stake.last_withdraw_request_shares = 0 ∧
      a2.stake.last_withdraw_request_value = 0 ∧
      a2.stake.last_withdraw_request_ts = now := by
  unfold remove_insurance_fund_stake at h
  split at h
  · exact CResult.noConfusion h
  · rename_i tsw htsw
    split at h
    · exact CResult.noConfusion h
    · rename_i hesc
      split at h
      · exact CResult.noConfusion h
      · rename_i u a1 hreb
        cases u
        split at h
        · exact CResult.noConfusion h
        · rename_i isb hcis
          split at h
          · rename_i hn
            split at h
            · rename_i hle
              split at h
              · exact CResult.noConfusion h
              · rename_i amount hs2v
                split at h
                · exact CResult.noConfusion h
                · rename_i lost hlost
                  obtain ⟨hc1, hc2⟩ := checked_if_shares_some _ _ _ hcis
                  have htsw1 := checked_sub_i64_some _ _ _ htsw
                  obtain ⟨hv, h2, h3, h4, h5, h6, h7, h8, h9⟩ :=
                    remove_settle_ok _ _ _ _ _ _ h
                  exact ⟨by omega, a1, hreb, hn, h9,
                    ⟨amount, hs2v, hv⟩, h2, h3, h4, h5, h6, h7, h8⟩
            · exact CResult.noConfusion h
          · exact CResult.noConfusion h

/-- Witness for C1 at the basic-test scenario: a full withdrawal of 1000000
shares against a 1000000 balance pays the frozen 999999, leaves cost basis 1
and empties the record and the pool. -/
theorem claim_c1_settle_withdraw_effects_witness :
    remove_insurance_fund_stake 1000000 acct_c1 0 =
      .ok 999999 ⟨⟨0, 0, 1, 0, 0, 0⟩, ⟨0⟩, ⟨0, 0, 0, 0, 0, 1, 0, 0, 1, 0⟩⟩ ∧
    (acct_c1.spot_market.insurance_withdraw_escrow_period ≤
        0 - acct_c1.stake.last_withdraw_request_ts ∧
      ∃ a1, apply_rebases 1000000 acct_c1 = .ok () a1 ∧
        0 < a1.stake.last_withdraw_request_shares ∧
        a1.stake.last_withdraw_request_shares ≤ a1.stake.if_shares ∧
        (∃ amt, if_shares_to_vault_amount a1.stake.last_withdraw_request_shares
            a1.spot_market.total_if_shares 1000000 = some amt ∧
          999999 = min amt a1.stake.last_withdraw_request_value) ∧
        (⟨⟨0, 0, 1, 0, 0, 0⟩, ⟨0⟩, ⟨0, 0, 0, 0, 0, 1, 0, 0, 1, 0⟩⟩ :
            Accounts).stake.if_shares =
          a1.stake.if_shares - a1.stake.last_withdraw_request_shares ∧
        (⟨⟨0, 0, 1, 0, 0, 0⟩, ⟨0⟩, ⟨0, 0, 0, 0, 0, 1, 0, 0, 1, 0⟩⟩ :
            Accounts).spot_market.total_if_shares =
          a1.spot_market.total_if_shares - a1.stake.last_withdraw_request_shares ∧
        (⟨⟨0, 0, 1, 0, 0, 0⟩, ⟨0⟩, ⟨0, 0, 0, 0, 0, 1, 0, 0, 1, 0⟩⟩ :
            Accounts).spot_market.user_if_shares =
          a1.spot_market.user_if_shares - a1.stake.last_withdraw_request_shares ∧
        (⟨⟨0, 0, 1, 0, 0, 0⟩, ⟨0⟩, ⟨0, 0, 0, 0, 0, 1, 0, 0, 1, 0⟩⟩ :
            Accounts).stake.cost_basis =
          a1.stake.cost_basis - ((999999 : Nat) : Int) ∧
        (⟨⟨0, 0, 1, 0, 0, 0⟩, ⟨0⟩, ⟨0, 0, 0, 0, 0, 1, 0, 0, 1, 0⟩⟩ :
            Accounts).stake.last_withdraw_request_shares = 0 ∧
        (⟨⟨0, 0, 1, 0, 0, 0⟩, ⟨0⟩, ⟨0, 0, 0, 0, 0, 1, 0, 0, 1, 0⟩⟩ :
            Accounts).stake.last_withdraw_request_value = 0 ∧
        (⟨⟨0, 0, 1, 0, 0, 0⟩, ⟨0⟩, ⟨0, 0, 0, 0, 0, 1, 0, 0, 1, 0⟩⟩ :
            Accounts).stake.last_withdraw_request_ts = 0) :=
  have h : remove_insurance_fund_stake 1000000 acct_c1 0 =
      .ok 999999 ⟨⟨0, 0, 1, 0, 0, 0⟩, ⟨0⟩, ⟨0, 0, 0, 0, 0, 1, 0, 0, 1, 0⟩⟩ := by
    decide
  ⟨h, claim_c1_settle_withdraw_effects 1000000 acct_c1 0 999999 _ h⟩

theorem decrease_if_shares_err (st : InsuranceFundStake) (n : Nat)
    (m : SpotMarket) (e : ErrorCode) (h : decrease_if_shares st n m = .error e) :
    e = .MathError ∨ e = .DefaultError := by
  unfold decrease_if_shares at h
  split at h
  · split at h
    · exact absurd h (by simp)
    · simp only [Except.error.injEq] at h
      exact Or.inl h.symm
  · simp only [Except.error.injEq] at h
    exact Or.inr h.symm

theorem calculate_if_shares_lost_err (st : InsuranceFundStake) (m : SpotMarket)
    (vault : Nat) (e : ErrorCode)
    (h : calculate_if_shares_lost st m vault = .error e) :
    e = .MathError ∨ e = .DefaultError := by
  unfold calculate_if_shares_lost at h
  split at h
  · simp only [Except.error.injEq] at h
    exact Or.inl h.symm
  · split at h
    · split at h
      · simp only [Except.error.injEq] at h
        exact Or.inl h.symm
      · split at h
        · simp only [Except.error.injEq] at h
          exact Or.inl h.symm
        · split at h
          · simp only [Except.error.injEq] at h
            exact Or.inl h.symm
          · split at h
            · exact absurd h (by simp)
            · simp only [Except.error.injEq] at h
              exact Or.inr h.symm
    · exact absurd h (by simp)

theorem apply_rebase_fund_err (v : Nat) (m m1 : SpotMarket) (e : ErrorCode)
    (h : apply_rebase_to_insurance_fund v m = .err e m1) : e = .MathError := by
  unfold apply_rebase_to_insurance_fund at h
  dsimp only at h
  split at h
  · split at h
    · simp only [CResult.err.injEq] at h
      exact h.1.symm
    · split at h <;> exact absurd h (by simp)
  · split at h <;> exact absurd h (by simp)

theorem apply_rebase_stake_err (st st1 : InsuranceFundStake) (m : SpotMarket)
    (e : ErrorCode) (h : apply_rebase_to_insurance_fund_stake st m = .err e st1) :
    e = .MathError ∨ e = .DefaultError := by
  unfold apply_rebase_to_insurance_fund_stake at h
  dsimp only at h
  split at h
  · split at h
    · split at h
      · split at h
        · exact absurd h (by simp)
        · simp only [CResult.err.injEq] at h
          exact Or.inr h.1.symm
      · simp only [CResult.err.injEq] at h
        exact Or.inl h.1.symm
    · simp only [CResult.err.injEq] at h
      exact Or.inr h.1.symm
  · exact absurd h (by simp)

theorem apply_rebases_err (v : Nat) (a a1 : Accounts) (e : ErrorCode)
    (h : apply_rebases v a = .err e a1) : e = .MathError ∨ e = .DefaultError := by
  unfold apply_rebases at h
  split at h
  · rename_i e2 m1 hm
    simp only [CResult.err.injEq] at h
    exact h.1 ▸ Or.inl (apply_rebase_fund_err _ _ _ _ hm)
  · rename_i u m1 hm
    split at h
    · rename_i e2 st1 hst
      simp only [CResult.err.injEq] at h
      exact h.1 ▸ apply_rebase_stake_err _ _ _ _ hst
    · exact absurd h (by simp)

theorem remove_settle_no_escrow_err (vault amount : Nat) (a1 : Accounts)
    (now : Int) (s : Accounts) :
    remove_insurance_fund_stake_settle vault amount a1 now ≠
      .err .TryingToRemoveLiquidityTooFast s := by
  intro h
  unfold remove_insurance_fund_stake_settle at h
  split at h
  · rename_i e hdec
    simp only [CResult.err.injEq] at h
    rcases decrease_if_shares_err _ _ _ _ hdec with he | he <;> simp [he] at h
  · split at h
    · simp at h
    · split at h
      · simp at h
      · split at h
        · simp at h
        · split at h
          · simp at h
          · split at h
            · split at h
              · simp at h
              · split at h
                · simp at h
                · split at h
                  · simp at h
                  · exact CResult.noConfusion h
            · exact CResult.noConfusion h

/-- C8 (amended): when the difference now - request_ts is i64-representable,
settle fails with the escrow error TryingToRemoveLiquidityTooFast, leaving
the state untouched, whenever the difference is below the escrow period; when
the difference equals the period exactly the escrow check passes (the result
is never the escrow error), and the concrete boundary scenario acct_c8
(request at 100, period 50, settled at exactly 150) succeeds.  When the
difference overflows i64 the call fails with the arithmetic error instead of
the escrow error (see the counterexample). -/
theorem claim_c8_escrow_boundary :
    (∀ (vault : Nat) (a : Accounts) (now : Int),
      -I64_BOUND ≤ now - a.stake.last_withdraw_request_ts →
      now - a.stake.last_withdraw_request_ts < I64_BOUND →
      now - a.stake.last_withdraw_request_ts <
        a.spot_market.insurance_withdraw_escrow_period →
      remove_insurance_fund_stake vault a now =
        .err .TryingToRemoveLiquidityTooFast a) ∧
    (∀ (vault : Nat) (a : Accounts) (now : Int) (s : Accounts),
      now - a.stake.last_withdraw_request_ts =
        a.spot_market.insurance_withdraw_escrow_period →
      -I64_BOUND ≤ now - a.stake.last_withdraw_request_ts →
      now - a.stake.last_withdraw_request_ts < I64_BOUND →
      remove_insurance_fund_stake vault a now ≠
        .err .TryingToRemoveLiquidityTooFast s) ∧
    (remove_insurance_fund_stake 1000 acct_c8 150).isOk = true := by
  refine ⟨?_, ?_, by decide⟩
  · intro vault a now h1 h2 h3
    have hs : checked_sub_i64 now a.stake.last_withdraw_request_ts =
        some (now - a.stake.last_withdraw_request_ts) := by
      unfold checked_sub_i64
      exact if_pos ⟨h1, h2⟩
    unfold remove_insurance_fund_stake
    rw [hs]
    dsimp only
    rw [if_pos h3]
  · intro vault a now s h1 h2 h3
    have hs : checked_sub_i64 now a.stake.last_withdraw_request_ts =
        some (now - a.stake.last_withdraw_request_ts) := by
      unfold checked_sub_i64
      exact if_pos ⟨h2, h3⟩
    unfold remove_insurance_fund_stake
    rw [hs]
    dsimp only
    rw [if_neg (by omega :
      ¬ now - a.stake.last_withdraw_request_ts <
        a.spot_market.insurance_withdraw_escrow_period)]
    cases hr : apply_rebases vault a with
    | err e a1 =>
      rcases apply_rebases_err _ _ _ _ hr with he | he <;> subst he <;> simp
    | ok u a1 =>
      dsimp only
      cases hc : checked_if_shares a1.stake a1.spot_market with
      | none => simp
      | some isb =>
        dsimp only
        by_cases hn : 0 < a1.stake.last_withdraw_request_shares
        · rw [if_pos hn]
          by_cases hle : a1.stake.last_withdraw_request_shares ≤ isb
          · rw [if_pos hle]
            cases hm : if_shares_to_vault_amount
                a1.stake.last_withdraw_request_shares
                a1.spot_market.total_if_shares vault with
            | none => simp
            | some amount =>
              dsimp only
              cases hl : calculate_if_shares_lost a1.stake a1.spot_market vault with
              | error e =>
                rcases calculate_if_shares_lost_err _ _ _ _ hl with he | he <;>
                  subst he <;> simp
              | ok lost =>
                dsimp only
                exact remove_settle_no_escrow_err vault amount a1 now s
          · rw [if_neg hle]
            simp
        · rw [if_neg hn]
          simp

/-- Counterexample to C8 as stated: with the request stamped at the largest
i64 timestamp and now the smallest i64 value, now - request_ts is far below
the escrow period, yet settle fails with the arithmetic error from the
overflowing timestamp subtraction, not with the escrow error the claim
names. -/
theorem claim_c8_escrow_counterexample :
    remove_insurance_fund_stake 5 acct_c8x (-(2 ^ 63)) =
      .err .MathError acct_c8x ∧
    ErrorCode.MathError ≠ ErrorCode.TryingToRemoveLiquidityTooFast ∧
    -(2 ^ 63) - acct_c8x.stake.last_withdraw_request_ts <
      acct_c8x.spot_market.insurance_withdraw_escrow_period := by
  refine ⟨by decide, by decide, by decide⟩

/-- Witness for C8 at the boundary fixture one second early: settling at 149
with the request stamped at 100 against a 50-second escrow fails with the
escrow error and leaves the accounts untouched. -/
theorem claim_c8_escrow_boundary_witness :
    remove_insurance_fund_stake 1000 acct_c8 149 =
      .err .TryingToRemoveLiquidityTooFast acct_c8 :=
  claim_c8_escrow_boundary.1 1000 acct_c8 149 (by decide) (by decide) (by decide)

theorem if_shares_to_vault_amount_le (n total balance : Nat) (hn : n ≤ total)
    (hmul : total * balance < U128_MAX_PLUS_ONE) (hb : balance < 2 ^ 64) :
    ∃ amt, if_shares_to_vault_amount n total balance = some amt ∧ amt ≤ balance := by
  unfold if_shares_to_vault_amount
  by_cases ht : total = 0
  · exact ⟨0, by rw [if_pos ht], Nat.zero_le _⟩
  · have hmul2 : n * balance ≤ total * balance := Nat.mul_le_mul_right balance hn
    have hle : n * balance / total ≤ balance := by
      have h1 : n * balance / total ≤ total * balance / total :=
        Nat.div_le_div_right hmul2
      have h2 : total * balance / total = balance :=
        Nat.mul_div_cancel_left balance (Nat.pos_of_ne_zero ht)
      exact h1.trans (le_of_eq h2)
    refine ⟨n * balance / total, ?_, hle⟩
    rw [if_neg ht, if_pos (by omega), if_pos (by unfold U64_MAX_PLUS_ONE; omega)]

theorem vault_amount_to_if_shares_zero (t balance : Nat) :
    vault_amount_to_if_shares 0 t balance = some 0 ∨
    vault_amount_to_if_shares 0 t balance = none := by
  unfold vault_amount_to_if_shares
  by_cases ht : t = 0
  · rw [if_pos ht]
    exact Or.inl rfl
  · rw [if_neg ht]
    by_cases hb : balance = 0
    · rw [if_pos hb]
      exact Or.inr rfl
    · rw [if_neg hb, if_pos (by unfold U128_MAX_PLUS_ONE; omega)]
      exact Or.inl (by simp)

theorem calculate_if_shares_lost_ok_of_zero_value (st : InsuranceFundStake)
    (m : SpotMarket) (vault amt : Nat)
    (hzero : st.last_withdraw_request_value = 0)
    (hle : st.last_withdraw_request_shares ≤ m.total_if_shares)
    (hs2v : if_shares_to_vault_amount st.last_withdraw_request_shares
      m.total_if_shares vault = some amt) :
    ∃ l, calculate_if_shares_lost st m vault = .ok l := by
  unfold calculate_if_shares_lost
  rw [hs2v]
  dsimp only
  by_cases h0 : st.last_withdraw_request_value < amt
  · rw [if_pos h0]
    have hsub1 : checked_sub_nat m.total_if_shares
        st.last_withdraw_request_shares =
        some (m.total_if_shares - st.last_withdraw_request_shares) := by
      unfold checked_sub_nat
      rw [if_pos hle]
    rw [hsub1]
    dsimp only
    have hsub2 : checked_sub_nat vault st.last_withdraw_request_value =
        some vault := by
      unfold checked_sub_nat
      rw [hzero]
      simp
    rw [hsub2]
    dsimp only
    have hvpos : vault ≠ 0 := by
      intro hv0
      rw [hzero] at h0
      rw [hv0] at hs2v
      unfold if_shares_to_vault_amount at hs2v
      simp [U128_MAX_PLUS_ONE, U64_MAX_PLUS_ONE] at hs2v
      omega
    rw [hzero]
    have hva : vault_amount_to_if_shares 0
        (m.total_if_shares - st.last_withdraw_request_shares) vault = some 0 := by
      unfold vault_amount_to_if_shares
      by_cases hrs : m.total_if_shares - st.last_withdraw_request_shares = 0
      · rw [if_pos hrs]
      · rw [if_neg hrs, if_neg hvpos, if_pos (by unfold U128_MAX_PLUS_ONE; omega)]
        simp
    rw [hva]
    dsimp only
    rw [if_pos (Nat.zero_le _)]
    exact ⟨_, rfl⟩
  · rw [if_neg h0]
    exact ⟨0, rfl⟩

/-- When the frozen request value is zero and the rebased state is
well-formed (matching bases, pending shares covered by the record and both
pool counters, cost basis in i64 range, payout amount within a u64-sized
vault), the settle phase of remove_insurance_fund_stake cannot fail. -/
theorem remove_settle_zero_isOk (vault amt : Nat) (a1 : Accounts) (now : Int)
    (hbase : a1.stake.if_base = a1.spot_market.if_shares_base)
    (hzero1 : a1.stake.last_withdraw_request_value = 0)
    (hle : a1.stake.last_withdraw_request_shares ≤ a1.stake.if_shares)
    (hsh : a1.stake.if_shares ≤ a1.spot_market.total_if_shares)
    (hus : a1.stake.last_withdraw_request_shares ≤ a1.spot_market.user_if_shares)
    (hcb1 : -I64_BOUND ≤ a1.stake.cost_basis)
    (hcb2 : a1.stake.cost_basis < I64_BOUND)
    (hamt : amt ≤ vault)
    (hv64 : vault < 2 ^ 64)
    (hmul : a1.spot_market.total_if_shares * vault < U128_MAX_PLUS_ONE) :
    ∀ r, remove_insurance_fund_stake_settle vault amt a1 now = r →
      r.isOk = true := by
  intro r hres
  unfold remove_insurance_fund_stake_settle at hres
  split at hres
  · rename_i e hdec
    exfalso
    unfold decrease_if_shares at hdec
    rw [if_pos hbase] at hdec
    have hcsn : checked_sub_nat a1.stake.if_shares
        a1.stake.last_withdraw_request_shares =
        some (a1.stake.if_shares - a1.stake.last_withdraw_request_shares) := by
      unfold checked_sub_nat
      rw [if_pos hle]
    rw [hcsn] at hdec
    dsimp only at hdec
    exact Except.noConfusion hdec
  · rename_i st2 hdec
    obtain ⟨hst2, -⟩ := decrease_if_shares_ok _ _ _ _ hdec
    split at hres
    · rename_i hc
      exfalso
      rw [hzero1, Nat.min_zero] at hc
      unfold cast_to_i64 at hc
      rw [if_pos (by norm_num)] at hc
      exact Option.noConfusion hc
    · rename_i wa hcast
      have hwa := cast_to_i64_some _ _ hcast
      rw [hzero1, Nat.min_zero] at hwa
      simp only [Nat.cast_zero] at hwa
      subst hwa
      subst hst2
      split at hres
      · rename_i hc
        exfalso
        dsimp only at hc
        unfold checked_sub_i64 at hc
        rw [if_pos ⟨by omega, by omega⟩] at hc
        exact Option.noConfusion hc
      · rename_i cb hcb
        split at hres
        · rename_i hc
          exfalso
          unfold checked_sub_nat at hc
          rw [if_pos (hle.trans hsh)] at hc
          exact Option.noConfusion hc
        · rename_i t htot
          split at hres
          · rename_i hc
            exfalso
            unfold checked_sub_nat at hc
            rw [if_pos hus] at hc
            exact Option.noConfusion hc
          · rename_i u huse
            split at hres
            · split at hres
              · rename_i hc
                exfalso
                unfold checked_if_shares at hc
                split at hc
                · exact Option.noConfusion hc
                · rename_i hneg
                  dsimp only at hneg
                  exact hneg hbase
              · rename_i isa hcs
                split at hres
                · rename_i hc
                  exfalso
                  unfold checked_sub_nat at hc
                  rw [if_pos hamt] at hc
                  exact Option.noConfusion hc
                · rename_i vb hvb
                  split at hres
                  · rename_i hc
                    exfalso
                    obtain ⟨hisa, -⟩ := checked_if_shares_some _ _ _ hcs
                    dsimp only at hisa
                    obtain ⟨ht, -⟩ := checked_sub_nat_some _ _ _ htot
                    obtain ⟨hvb2, -⟩ := checked_sub_nat_some _ _ _ hvb
                    obtain ⟨sq, hsq, -⟩ := if_shares_to_vault_amount_le isa t vb
                      (by omega)
                      (by
                        rw [ht, hvb2]
                        exact lt_of_le_of_lt
                          (Nat.mul_le_mul (Nat.sub_le _ _) (Nat.sub_le _ _))
                          hmul)
                      (by omega)
                    rw [hsq] at hc
                    exact Option.noConfusion hc
                  · rename_i sq hsq
                    subst hres
                    rfl
            · subst hres
              rfl

/-- C10: if a record's frozen pending-withdraw value is 0 (as a request made
against an empty vault freezes, the cap being balance - 1 saturating at 0),
then, after the escrow period and with the rebased state otherwise valid for
settlement, remove_insurance_fund_stake still succeeds: it returns a payout
of 0, burns the full pending share count from the record's shares and from
the pool's total and depositor share counts, clears the pending fields and
leaves the cost basis undebited. -/
theorem claim_c10_zero_value_settle (vault : Nat) (a a1 : Accounts) (now : Int)
    (hv64 : vault < 2 ^ 64)
    (hreb : apply_rebases vault a = .ok () a1)
    (hzero : a.stake.last_withdraw_request_value = 0)
    (hlo : -I64_BOUND ≤ now - a.stake.last_withdraw_request_ts)
    (hhi : now - a.stake.last_withdraw_request_ts < I64_BOUND)
    (hesc : a.spot_market.insurance_withdraw_escrow_period ≤
      now - a.stake.last_withdraw_request_ts)
    (hn : 0 < a1.stake.last_withdraw_request_shares)
    (hle : a1.stake.last_withdraw_request_shares ≤ a1.stake.if_shares)
    (hsh : a1.stake.if_shares ≤ a1.spot_market.total_if_shares)
    (hus : a1.stake.last_withdraw_request_shares ≤ a1.spot_market.user_if_shares)
    (hcb1 : -I64_BOUND ≤ a1.stake.cost_basis)
    (hcb2 : a1.stake.cost_basis < I64_BOUND)
    (hmul : a1.spot_market.total_if_shares * vault < U128_MAX_PLUS_ONE) :
    ∃ a2, remove_insurance_fund_stake vault a now = .ok 0 a2 ∧
      a2.stake.last_withdraw_request_shares = 0 ∧
      a2.stake.last_withdraw_request_value = 0 ∧
      a2.stake.if_shares =
        a1.stake.if_shares - a1.stake.last_withdraw_request_shares ∧
      a2.spot_market.total_if_shares =
        a1.spot_market.total_if_shares - a1.stake.last_withdraw_request_shares ∧
      a2.spot_market.user_if_shares =
        a1.spot_market.user_if_shares - a1.stake.last_withdraw_request_shares ∧
      a2.stake.cost_basis = a1.stake.cost_basis := by
  obtain ⟨hbase, -, -, -, hval, -, -, -⟩ := apply_rebases_ok vault a a1 hreb
  have hzero1 : a1.stake.last_withdraw_request_value = 0 := by rw [hval, hzero]
  have hd : checked_sub_i64 now a.stake.last_withdraw_request_ts =
      some (now - a.stake.last_withdraw_request_ts) := by
    unfold checked_sub_i64
    rw [if_pos ⟨hlo, hhi⟩]
  unfold remove_insurance_fund_stake
  rw [hd]
  dsimp only
  rw [if_neg (not_lt.mpr hesc)]
  rw [hreb]
  dsimp only
  have hcs : checked_if_shares a1.stake a1.spot_market =
      some a1.stake.if_shares := by
    unfold checked_if_shares
    rw [if_pos hbase]
  rw [hcs]
  dsimp only
  rw [if_pos hn, if_pos hle]
  obtain ⟨amt, hs2v, hamt⟩ := if_shares_to_vault_amount_le
    a1.stake.last_withdraw_request_shares a1.spot_market.total_if_shares vault
    (hle.trans hsh) hmul hv64
  rw [hs2v]
  dsimp only
  obtain ⟨l, hl⟩ := calculate_if_shares_lost_ok_of_zero_value a1.stake
    a1.spot_market vault amt hzero1 (hle.trans hsh) hs2v
  rw [hl]
  dsimp only
  rcases hres : remove_insurance_fund_stake_settle vault amt a1 now with
    ⟨v, a2⟩ | ⟨e, a2⟩
  · obtain ⟨hv, h2, h3, h4, h5, h6, h7, -, -⟩ :=
      remove_settle_ok vault amt a1 now v a2 hres
    rw [hzero1, Nat.min_zero] at hv
    subst hv
    refine ⟨a2, rfl, h6, h7, h2, h3, h4, ?_⟩
    rw [h5]
    simp
  · exfalso
    have hok := remove_settle_zero_isOk vault amt a1 now hbase hzero1 hle hsh
      hus hcb1 hcb2 hamt hv64 hmul _ hres
    simp [CResult.isOk] at hok

/-- C10 witness: a record with 80 pending shares and frozen value 0 against
an empty vault settles successfully at now = 60 with payout 0, the shares
burned everywhere. -/
theorem claim_c10_zero_value_settle_witness :
    stk_c10.last_withdraw_request_value = 0 ∧
    (∃ a2, remove_insurance_fund_stake 0 acct_c10 60 = .ok 0 a2 ∧
      a2.stake.last_withdraw_request_shares = 0 ∧
      a2.stake.last_withdraw_request_value = 0 ∧
      a2.stake.if_shares = acct_c10.stake.if_shares -
        acct_c10.stake.last_withdraw_request_shares ∧
      a2.spot_market.total_if_shares = acct_c10.spot_market.total_if_shares -
        acct_c10.stake.last_withdraw_request_shares ∧
      a2.spot_market.user_if_shares = acct_c10.spot_market.user_if_shares -
        acct_c10.stake.last_withdraw_request_shares ∧
      a2.stake.cost_basis = acct_c10.stake.cost_basis) :=
  ⟨by decide, claim_c10_zero_value_settle 0 acct_c10 acct_c10 60 (by decide)
    (by decide) (by decide) (by decide) (by decide) (by decide) (by decide)
    (by decide) (by decide) (by decide) (by decide) (by decide) (by decide)⟩

/-- The state acct_c4 is left in by the failed 7-share request: the requested
share count is already stored in the record. -/
def acct_c4m : Accounts :=
  { acct_c4 with stake :=
    { stk_c4 with last_withdraw_request_shares := 7 } }

/-- C4 counterexample: a request_remove_insurance_fund_stake for 7 shares
against a record owning only 5 fails, yet the state it returns carries
last_withdraw_request_shares = 7 where the input had 0: the failed operation
left a partial mutation visible. -/
theorem claim_c4_atomicity_counterexample :
    (request_remove_insurance_fund_stake 7 10 acct_c4 0).isOk = false ∧
    acct_c4.stake.last_withdraw_request_shares = 0 ∧
    (request_remove_insurance_fund_stake 7 10 acct_c4
      0).state.stake.last_withdraw_request_shares = 7 := by
  decide

/-- C4 (amended): request_remove_insurance_fund_stake stores the requested
share count in the record before validating it; whenever the rebase prologue
on the so-modified state succeeds and the (rebased) stored count exceeds the
record's share balance, the call fails with the generic error and returns the
rebased state in which the stored pending count — the requested count divided
by the rebase divisor — remains visible. -/
theorem claim_c4_error_partial_mutation (n vault : Nat) (a a1 : Accounts)
    (now : Int)
    (hreb : apply_rebases vault
      { a with stake :=
        { a.stake with last_withdraw_request_shares := n } } = .ok () a1)
    (hinsuf : ¬ a1.stake.last_withdraw_request_shares ≤ a1.stake.if_shares) :
    request_remove_insurance_fund_stake n vault a now =
      .err .DefaultError a1 ∧
    a1.stake.last_withdraw_request_shares =
      n / 10 ^ (a1.spot_market.if_shares_base - a.stake.if_base) := by
  obtain ⟨hbase, -, -, hdiv, -, -, -, -⟩ := apply_rebases_ok _ _ _ hreb
  have hcs : checked_if_shares a1.stake a1.spot_market =
      some a1.stake.if_shares := by
    unfold checked_if_shares
    rw [if_pos hbase]
  constructor
  · unfold request_remove_insurance_fund_stake
    rw [hreb]
    dsimp only
    rw [hcs]
    dsimp only
    rw [if_neg hinsuf]
  · dsimp only at hdiv
    exact hdiv

/-- C4 witness: the concrete failed request at acct_c4 matches the amended
characterization, with no rebase triggered (divisor 1). -/
theorem claim_c4_error_partial_mutation_witness :
    apply_rebases 10 { acct_c4 with stake :=
      { acct_c4.stake with last_withdraw_request_shares := 7 } } =
      .ok () acct_c4m ∧
    ¬ acct_c4m.stake.last_withdraw_request_shares ≤
      acct_c4m.stake.if_shares ∧
    (request_remove_insurance_fund_stake 7 10 acct_c4 0 =
      .err .DefaultError acct_c4m ∧
    acct_c4m.stake.last_withdraw_request_shares =
      7 / 10 ^ (acct_c4m.spot_market.if_shares_base - acct_c4.stake.if_base)) :=
  ⟨by decide, by decide,
    claim_c4_error_partial_mutation 7 10 acct_c4 acct_c4m 0 (by decide)
      (by decide)⟩

/-- C5 counterexample: a request for 1000 shares against a vault of 10
triggers a rebase and succeeds, but the record's pending-withdraw share count
on return is 10, not the requested 1000. -/
theorem claim_c5_pending_counterexample :
    (request_remove_insurance_fund_stake 1000 10 acct_c5 5).isOk = true ∧
    (request_remove_insurance_fund_stake 1000 10 acct_c5
      5).state.stake.last_withdraw_request_shares = 10 ∧
    (10 : Nat) ≠ 1000 := by
  decide

/-- Every successful stamp phase of request_remove_insurance_fund_stake sets
the frozen request value to min(recomputed amount, balance - 1), stamps the
request timestamp, and leaves the stored pending share count alone. -/
theorem request_stamp_ok (vault amt cis : Nat) (a1 a2 : Accounts) (now : Int)
    (h : request_remove_insurance_fund_stake_stamp vault amt cis a1 now =
      .ok () a2) :
    a2.stake.last_withdraw_request_value = min amt (vault - 1) ∧
    a2.stake.last_withdraw_request_ts = now ∧
    a2.stake.last_withdraw_request_shares =
      a1.stake.last_withdraw_request_shares := by
  unfold request_remove_insurance_fund_stake_stamp at h
  split at h
  · split at h
    · split at h
      · exact CResult.noConfusion h
      · rename_i sq hsq
        simp only [CResult.ok.injEq, true_and] at h
        subst h
        exact ⟨rfl, rfl, rfl⟩
    · simp only [CResult.ok.injEq, true_and] at h
      subst h
      exact ⟨rfl, rfl, rfl⟩
  · exact CResult.noConfusion h

/-- C5 (amended): a successful request_remove_insurance_fund_stake(n_shares)
stores, not n_shares itself, but n_shares divided by the rebase divisor the
call's own rebase prologue applied (a strictly smaller count whenever a
rebase fires); the frozen request value is min(amount_for_shares of the
stored count on the post-rebase totals, balance - 1) with the subtraction
saturating at zero, and the request timestamp is stamped to now. -/
theorem claim_c5_request_freezes_value (n vault : Nat) (a a2 : Accounts)
    (now : Int)
    (h : request_remove_insurance_fund_stake n vault a now = .ok () a2) :
    ∃ a1 amt,
      apply_rebases vault
        { a with stake :=
          { a.stake with last_withdraw_request_shares := n } } = .ok () a1 ∧
      a1.stake.last_withdraw_request_shares =
        n / 10 ^ (a1.spot_market.if_shares_base - a.stake.if_base) ∧
      a2.stake.last_withdraw_request_shares =
        a1.stake.last_withdraw_request_shares ∧
      if_shares_to_vault_amount a1.stake.last_withdraw_request_shares
        a1.spot_market.total_if_shares vault = some amt ∧
      a2.stake.last_withdraw_request_value = min amt (vault - 1) ∧
      a2.stake.last_withdraw_request_ts = now := by
  unfold request_remove_insurance_fund_stake at h
  split at h
  · exact CResult.noConfusion h
  · rename_i u a1 hreb
    split at h
    · exact CResult.noConfusion h
    · rename_i cis hcs
      split at h
      · split at h
        · split at h
          · exact CResult.noConfusion h
          · rename_i amt hs2v
            obtain ⟨hv, hts, hlw⟩ := request_stamp_ok vault amt cis a1 a2 now h
            obtain ⟨-, -, -, hdiv, -, -, -, -⟩ := apply_rebases_ok _ _ _ hreb
            refine ⟨a1, amt, hreb, ?_, hlw, hs2v, hv, hts⟩
            dsimp only at hdiv
            exact hdiv
        · exact CResult.noConfusion h
      · exact CResult.noConfusion h

/-- The post-rebase pool acct_c5 is left in by the successful 1000-share
request against a vault of 10. -/
def acct_c5r : Accounts :=
  { stake :=
    { if_shares := 10, if_base := 2, cost_basis := 1000,
      last_withdraw_request_shares := 10, last_withdraw_request_value := 9,
      last_withdraw_request_ts := 5 }
    user_stats := { staked_quote_asset_amount := 0 }
    spot_market :=
      { mkt_c5 with
        total_if_shares := 10
        user_if_shares := 10
        if_shares_base := 2 } }

/-- C5 witness: the concrete successful request at acct_c5 (rebase divisor
100, stored pending 10, frozen value min(10, 9) = 9, timestamp 5). -/
theorem claim_c5_request_freezes_value_witness :
    request_remove_insurance_fund_stake 1000 10 acct_c5 5 = .ok () acct_c5r ∧
    (∃ a1 amt,
      apply_rebases 10
        { acct_c5 with stake :=
          { acct_c5.stake with last_withdraw_request_shares := 1000 } } =
        .ok () a1 ∧
      a1.stake.last_withdraw_request_shares =
        1000 / 10 ^ (a1.spot_market.if_shares_base - acct_c5.stake.if_base) ∧
      acct_c5r.stake.last_withdraw_request_shares =
        a1.stake.last_withdraw_request_shares ∧
      if_shares_to_vault_amount a1.stake.last_withdraw_request_shares
        a1.spot_market.total_if_shares 10 = some amt ∧
      acct_c5r.stake.last_withdraw_request_value = min amt (10 - 1) ∧
      acct_c5r.stake.last_withdraw_request_ts = 5) :=
  ⟨by decide, claim_c5_request_freezes_value 1000 10 acct_c5 acct_c5r 5
    (by decide)⟩

theorem cast_to_u64_some (n x : Nat) (h : cast_to_u64 n = some x) : x = n := by
  unfold cast_to_u64 at h
  split at h
  · simp only [Option.some.injEq] at h
    exact h.symm
  · exact Option.noConfusion h

theorem get_proportion_u128_some (value num denom p : Nat)
    (h : get_proportion_u128 value num denom = some p) :
    p = value * num / denom := by
  unfold get_proportion_u128 at h
  split at h
  · split at h
    · exact Option.noConfusion h
    · simp only [Option.some.injEq] at h
      exact h.symm
  · exact Option.noConfusion h

/-- Every successful mint phase of settle_revenue_to_insurance_fund returns
exactly the transferable token amount it was given, leaves the depositor
share count and share base untouched, and only grows the total share
count. -/
theorem settle_mint_ok (k : RevenueConstants) (ifta vault : Nat)
    (m : SpotMarket) (now : Int) (v : Nat) (m2 : SpotMarket)
    (h : settle_revenue_to_insurance_fund_mint k ifta vault m now = .ok v m2) :
    v = ifta ∧ m2.user_if_shares = m.user_if_shares ∧
    m.total_if_shares ≤ m2.total_if_shares ∧
    m2.if_shares_base = m.if_shares_base := by
  unfold settle_revenue_to_insurance_fund_mint at h
  split at h
  · exact CResult.noConfusion h
  · rename_i pif hpif
    split at h
    · exact CResult.noConfusion h
    · rename_i pf hpf
      split at h
      · exact CResult.noConfusion h
      · rename_i x hx
        split at h
        · exact CResult.noConfusion h
        · rename_i tf htf
          split at h
          · exact CResult.noConfusion h
          · rename_i y hy
            split at h
            · exact CResult.noConfusion h
            · rename_i ns hns
              split at h
              · exact CResult.noConfusion h
              · rename_i t ht
                split at h
                · exact CResult.noConfusion h
                · rename_i r hr
                  simp only [CResult.ok.injEq] at h
                  obtain ⟨hv, hm2⟩ := h
                  subst hm2
                  have ht2 := checked_add_u128_some _ _ _ ht
                  refine ⟨hv.symm, rfl, ?_, rfl⟩
                  show m.total_if_shares ≤ t
                  rw [ht2]
                  exact Nat.le_add_right _ _

/-- C2 counterexample: with a depositors claim of 10 exceeding the revenue
pool amount 4, settle_revenue_to_insurance_fund transfers the full 4 — not
the 2 the claim's cap of half the revenue amount would allow. -/
theorem claim_c2_halving_counterexample :
    (settle_revenue_to_insurance_fund k_c2 10 50 100 mkt_c2 7).val? =
      some 4 ∧
    mkt_c2.revenue_pool_token_amount < 10 ∧
    ¬ (4 : Nat) ≤ mkt_c2.revenue_pool_token_amount / 2 := by
  decide

/-- C2 (amended): the halving cap of settle_revenue_to_insurance_fund fires
in the opposite situation from the claim and on the other operand: when the
depositors claim is BELOW the revenue pool amount the transferable amount is
half the CLAIM (not of the revenue amount), and when the claim is at least
the revenue amount the full revenue amount is transferred; the returned
amount is that value scaled by the revenue share fraction.  Stated here for a
pool without depositor shares, where no APR cap interferes. -/
theorem claim_c2_halving (k : RevenueConstants) (dc sv vault : Nat)
    (m m2 : SpotMarket) (now : Int) (v : Nat)
    (hu : m.user_if_shares = 0)
    (h : settle_revenue_to_insurance_fund k dc sv vault m now = .ok v m2) :
    v = (if dc < m.revenue_pool_token_amount then dc / 2
      else m.revenue_pool_token_amount) * k.rev_share_numerator /
      k.rev_share_denominator := by
  unfold settle_revenue_to_insurance_fund at h
  split at h
  · split at h
    · rw [hu] at h
      rw [if_neg (lt_irrefl 0)] at h
      dsimp only at h
      split at h
      · exact CResult.noConfusion h
      · rename_i p hp
        split at h
        · exact CResult.noConfusion h
        · rename_i ifta hcast
          split at h
          · obtain ⟨hv, -, -, -⟩ := settle_mint_ok _ _ _ _ _ _ _ h
            have hifta := cast_to_u64_some _ _ hcast
            have hp2 := get_proportion_u128_some _ _ _ _ hp
            rw [hv, hifta, hp2]
          · exact CResult.noConfusion h
    · exact CResult.noConfusion h
  · exact CResult.noConfusion h

/-- Pool state after the C2 settle: timestamp stamped, revenue drained, no
new shares (40 / 100 rounds to 0). -/
def mkt_c2r : SpotMarket :=
  { mkt_c2 with
    last_revenue_settle_ts := 7
    revenue_pool_token_amount := 0 }

/-- C2 witness: the concrete settle at mkt_c2 transfers 4 = the full revenue
amount, matching the amended formula. -/
theorem claim_c2_halving_witness :
    mkt_c2.user_if_shares = 0 ∧
    settle_revenue_to_insurance_fund k_c2 10 50 100 mkt_c2 7 =
      .ok 4 mkt_c2r ∧
    (4 : Nat) = (if 10 < mkt_c2.revenue_pool_token_amount then 10 / 2
      else mkt_c2.revenue_pool_token_amount) * k_c2.rev_share_numerator /
      k_c2.rev_share_denominator :=
  ⟨rfl, by decide,
    claim_c2_halving k_c2 10 50 100 mkt_c2 mkt_c2r 7 4 (by decide)
      (by decide)⟩

/-- C3 counterexample: with a 100-second year, 10-second settle period, unit
APR ratio and vault 1000, settle_revenue_to_insurance_fund transfers 1,
whereas the claim's proportional formula vault * apr / (year / period) gives
100: the code divides by the period instead of multiplying. -/
theorem claim_c3_apr_counterexample :
    (settle_revenue_to_insurance_fund k_c3 1000000 50 1000 mkt_c3 0).val? =
      some 1 ∧
    1000 * k_c3.max_apr_numerator / k_c3.max_apr_precision /
      (k_c3.one_year / mkt_c3.revenue_settle_period.toNat) = 100 ∧
    (1 : Nat) ≠ 100 := by
  decide

/-- C3 (amended): when depositor shares exist, every successful
settle_revenue_to_insurance_fund caps the transferable amount at
vault_balance * max_apr_numerator / max_apr_precision / seconds_per_year /
settle_period_seconds — successive floor divisions, so the ceiling shrinks
as the settle period grows (inverse, not proportional, in the period); the
returned amount is the minimum of this ceiling and the halving-rule amount,
scaled by the revenue share fraction.  When no depositor shares exist the
cap is not applied. -/
theorem claim_c3_apr_inverse_cap (k : RevenueConstants) (dc sv vault : Nat)
    (m m2 : SpotMarket) (now : Int) (v : Nat)
    (hu : 0 < m.user_if_shares)
    (h : settle_revenue_to_insurance_fund k dc sv vault m now = .ok v m2) :
    ∃ c, capped_apr_amount k vault m.revenue_settle_period = some c ∧
      v = min (if dc < m.revenue_pool_token_amount then dc / 2
        else m.revenue_pool_token_amount) c * k.rev_share_numerator /
        k.rev_share_denominator := by
  unfold settle_revenue_to_insurance_fund at h
  split at h
  · split at h
    · cases hc : capped_apr_amount k vault m.revenue_settle_period with
      | none =>
        rw [hc] at h
        dsimp only at h
        exact CResult.noConfusion h
      | some c =>
        rw [hc] at h
        dsimp only at h
        refine ⟨c, rfl, ?_⟩
        split at h
        · exact CResult.noConfusion h
        · rename_i p hp
          split at h
          · exact CResult.noConfusion h
          · rename_i ifta hcast
            split at h
            · obtain ⟨hv, -, -, -⟩ := settle_mint_ok _ _ _ _ _ _ _ h
              have hifta := cast_to_u64_some _ _ hcast
              have hp2 := get_proportion_u128_some _ _ _ _ hp
              rw [hv, hifta, hp2]
            · exact CResult.noConfusion h
    · exact CResult.noConfusion h
  · exact CResult.noConfusion h

/-- Pool state after the C3 settle: one token transferred, one share minted
to the protocol. -/
def mkt_c3r : SpotMarket :=
  { mkt_c3 with
    total_if_shares := 1001
    revenue_pool_token_amount := 999999 }

/-- C3 witness: the concrete settle at mkt_c3 transfers min(1000000, 1) = 1,
the inverse-in-period APR ceiling. -/
theorem claim_c3_apr_inverse_cap_witness :
    0 < mkt_c3.user_if_shares ∧
    settle_revenue_to_insurance_fund k_c3 1000000 50 1000 mkt_c3 0 =
      .ok 1 mkt_c3r ∧
    (∃ c, capped_apr_amount k_c3 1000 mkt_c3.revenue_settle_period =
        some c ∧
      (1 : Nat) = min (if 1000000 < mkt_c3.revenue_pool_token_amount
        then 1000000 / 2 else mkt_c3.revenue_pool_token_amount) c *
        k_c3.rev_share_numerator / k_c3.rev_share_denominator) :=
  ⟨by decide, by decide,
    claim_c3_apr_inverse_cap k_c3 1000000 50 1000 mkt_c3 mkt_c3r 0 1
      (by decide) (by decide)⟩

theorem cast_to_i128_of_u128_some (n : Nat) (x : Int)
    (h : cast_to_i128_of_u128 n = some x) : x = (n : Int) := by
  unfold cast_to_i128_of_u128 at h
  split at h
  · simp only [Option.some.injEq] at h
    exact h.symm
  · exact Option.noConfusion h

theorem checked_sub_i128_some (a b x : Int) (h : checked_sub_i128 a b = some x) :
    x = a - b := by
  unfold checked_sub_i128 at h
  split at h
  · simp only [Option.some.injEq] at h
    exact h.symm
  · exact Option.noConfusion h

theorem cast_to_u64_of_i128_some (x : Int) (w : Nat)
    (h : cast_to_u64_of_i128 x = some w) : w = x.toNat := by
  unfold cast_to_u64_of_i128 at h
  split at h
  · simp only [Option.some.injEq] at h
    exact h.symm
  · exact Option.noConfusion h

/-- Every successful draw phase of resolve_perp_pnl_deficit pays the
insurance withdraw it was given, leaves the bank untouched, and adds the
draw to both the per-period and the lifetime counters. -/
theorem resolve_draw_ok (iw : Int) (bank : SpotMarket) (market : PerpMarket)
    (now : Int) (w : Nat) (b2 : SpotMarket) (m2 : PerpMarket)
    (h : resolve_perp_pnl_deficit_draw iw bank market now = .ok w (b2, m2)) :
    w = iw.toNat ∧ b2 = bank ∧
    m2.revenue_withdraw_since_last_settle =
      market.revenue_withdraw_since_last_settle + w ∧
    m2.quote_settled_insurance = market.quote_settled_insurance + w := by
  unfold resolve_perp_pnl_deficit_draw at h
  split at h
  · exact CResult.noConfusion h
  · rename_i tfmd htfmd
    split at h
    · exact CResult.noConfusion h
    · rename_i rv hrv
      split at h
      · exact CResult.noConfusion h
      · rename_i qs hqs
        split at h
        · split at h
          · exact CResult.noConfusion h
          · rename_i w2 hw2
            simp only [CResult.ok.injEq, Prod.mk.injEq] at h
            obtain ⟨hww, hbb, hmm⟩ := h
            subst hww
            subst hmm
            have hrve := checked_add_u128_some _ _ _ hrv
            have hqse := checked_add_u128_some _ _ _ hqs
            have hwe := cast_to_u64_of_i128_some _ _ hw2
            refine ⟨hwe, hbb.symm, ?_, ?_⟩
            · show rv = market.revenue_withdraw_since_last_settle + w2
              rw [hrve, hwe]
            · show qs = market.quote_settled_insurance + w2
              rw [hqse, hwe]
        · exact CResult.noConfusion h

/-- Success characterization of the tail of resolve_perp_pnl_deficit after
the excess imbalance has been computed: the draw is the positive four-way
minimum and both counters grow by it. -/
theorem resolve_deficit_tail_ok (excess : Int) (vault : Nat)
    (bank b2 : SpotMarket) (market m2 : PerpMarket) (now : Int) (w : Nat)
    (h : (if 0 < excess then
        match checked_sub_nat market.max_revenue_withdraw_per_period
            market.revenue_withdraw_since_last_settle with
        | none => .err .MathError (bank, market)
        | some mrw0 =>
          match cast_to_i128_of_u128 mrw0 with
          | none => .err .MathError (bank, market)
          | some max_revenue_withdraw_per_period =>
            if 0 < max_revenue_withdraw_per_period then
              match checked_sub_nat market.quote_max_insurance
                  market.quote_settled_insurance with
              | none => .err .MathError (bank, market)
              | some miw0 =>
                match cast_to_i128_of_u128 miw0 with
                | none => .err .MathError (bank, market)
                | some max_insurance_withdraw =>
                  if 0 < max_insurance_withdraw then
                    if 0 < min (min (min excess
                          max_revenue_withdraw_per_period) max_insurance_withdraw)
                        ((vault - 1 : Nat) : Int) then
                      resolve_perp_pnl_deficit_draw
                        (min (min (min excess
                          max_revenue_withdraw_per_period) max_insurance_withdraw)
                        ((vault - 1 : Nat) : Int)) bank market now
                    else .err .DefaultError (bank, market)
                  else .err .DefaultError (bank, market)
            else .err .DefaultError (bank, market)
      else .err .DefaultError (bank, market)) = CResult.ok w (b2, m2)) :
    0 < min (min (min excess
      ((market.max_revenue_withdraw_per_period -
        market.revenue_withdraw_since_last_settle : Nat) : Int))
      ((market.quote_max_insurance -
        market.quote_settled_insurance : Nat) : Int))
      ((vault - 1 : Nat) : Int) ∧
    w = (min (min (min excess
      ((market.max_revenue_withdraw_per_period -
        market.revenue_withdraw_since_last_settle : Nat) : Int))
      ((market.quote_max_insurance -
        market.quote_settled_insurance : Nat) : Int))
      ((vault - 1 : Nat) : Int)).toNat ∧
    b2 = bank ∧
    m2.revenue_withdraw_since_last_settle =
      market.revenue_withdraw_since_last_settle + w ∧
    m2.quote_settled_insurance = market.quote_settled_insurance + w := by
  split at h
  · split at h
    · exact CResult.noConfusion h
    · rename_i mrw0 hmrw0
      obtain ⟨hmrw0e, -⟩ := checked_sub_nat_some _ _ _ hmrw0
      subst hmrw0e
      split at h
      · exact CResult.noConfusion h
      · rename_i mrw hcm
        have hcme := cast_to_i128_of_u128_some _ _ hcm
        subst hcme
        split at h
        · split at h
          · exact CResult.noConfusion h
          · rename_i miw0 hmiw0
            obtain ⟨hmiw0e, -⟩ := checked_sub_nat_some _ _ _ hmiw0
            subst hmiw0e
            split at h
            · exact CResult.noConfusion h
            · rename_i miw hcm2
              have hcme2 := cast_to_i128_of_u128_some _ _ hcm2
              subst hcme2
              split at h
              · split at h
                · rename_i hposM
                  obtain ⟨hw, hb, hrv, hqs⟩ :=
                    resolve_draw_ok _ _ _ _ _ _ _ h
                  subst hw
                  exact ⟨hposM, rfl, hb, hrv, hqs⟩
                · exact CResult.noConfusion h
              · exact CResult.noConfusion h
        · exact CResult.noConfusion h
  · exact CResult.noConfusion h

/-- Success characterization of resolve_perp_pnl_deficit: the returned draw
is the positive four-way minimum of the excess pnl imbalance, the remaining
per-period allowance, the remaining lifetime allowance and the vault balance
less one, and both withdrawal counters grow by exactly the draw. -/
theorem resolve_deficit_ok (bv vault : Nat) (bank b2 : SpotMarket)
    (market m2 : PerpMarket) (now : Int) (w : Nat)
    (h : resolve_perp_pnl_deficit bv vault bank market now = .ok w (b2, m2)) :
    0 < min (min (min
      (if 0 < market.unrealized_max_imbalance then
        market.net_user_pnl - (market.unrealized_max_imbalance : Int) else 0)
      ((market.max_revenue_withdraw_per_period -
        market.revenue_withdraw_since_last_settle : Nat) : Int))
      ((market.quote_max_insurance -
        market.quote_settled_insurance : Nat) : Int))
      ((vault - 1 : Nat) : Int) ∧
    w = (min (min (min
      (if 0 < market.unrealized_max_imbalance then
        market.net_user_pnl - (market.unrealized_max_imbalance : Int) else 0)
      ((market.max_revenue_withdraw_per_period -
        market.revenue_withdraw_since_last_settle : Nat) : Int))
      ((market.quote_max_insurance -
        market.quote_settled_insurance : Nat) : Int))
      ((vault - 1 : Nat) : Int)).toNat ∧
    m2.revenue_withdraw_since_last_settle =
      market.revenue_withdraw_since_last_settle + w ∧
    m2.quote_settled_insurance = market.quote_settled_insurance + w := by
  unfold resolve_perp_pnl_deficit at h
  split at h
  · split at h
    · by_cases hmi : 0 < market.unrealized_max_imbalance
      · rw [if_pos hmi] at h
        cases hci : cast_to_i128_of_u128 market.unrealized_max_imbalance with
        | none =>
          rw [hci] at h
          dsimp only at h
          exact CResult.noConfusion h
        | some mi =>
          rw [hci] at h
          dsimp only at h
          cases hcs : checked_sub_i128 market.net_user_pnl mi with
          | none =>
            rw [hcs] at h
            dsimp only at h
            exact CResult.noConfusion h
          | some excess =>
            rw [hcs] at h
            dsimp only at h
            have hmie := cast_to_i128_of_u128_some _ _ hci
            subst hmie
            have hexe := checked_sub_i128_some _ _ _ hcs
            obtain ⟨h1, h2, -, h4, h5⟩ :=
              resolve_deficit_tail_ok excess vault bank b2 market m2 now w h
            rw [if_pos hmi, ← hexe]
            exact ⟨h1, h2, h4, h5⟩
      · rw [if_neg hmi] at h
        dsimp only at h
        obtain ⟨h1, h2, -, h4, h5⟩ :=
          resolve_deficit_tail_ok 0 vault bank b2 market m2 now w h
        rw [if_neg hmi]
        exact ⟨h1, h2, h4, h5⟩
    · exact CResult.noConfusion h
  · exact CResult.noConfusion h

/-- C6: every successful resolve_perp_pnl_deficit returns a draw equal to
the four-way minimum of the excess pnl imbalance, the remaining per-period
withdraw allowance, the remaining lifetime insurance allowance and the vault
balance less one; that minimum is strictly positive on success, and both the
per-period and the lifetime counters grow by exactly the draw.  Conversely
the call fails whenever the excess imbalance, either remaining allowance, or
the four-way minimum is non-positive. -/
theorem claim_c6_deficit_min_draw :
    (∀ (bv vault : Nat) (bank b2 : SpotMarket) (market m2 : PerpMarket)
        (now : Int) (w : Nat),
      resolve_perp_pnl_deficit bv vault bank market now = .ok w (b2, m2) →
      0 < min (min (min
        (if 0 < market.unrealized_max_imbalance then
          market.net_user_pnl - (market.unrealized_max_imbalance : Int) else 0)
        ((market.max_revenue_withdraw_per_period -
          market.revenue_withdraw_since_last_settle : Nat) : Int))
        ((market.quote_max_insurance -
          market.quote_settled_insurance : Nat) : Int))
        ((vault - 1 : Nat) : Int) ∧
      w = (min (min (min
        (if 0 < market.unrealized_max_imbalance then
          market.net_user_pnl - (market.unrealized_max_imbalance : Int) else 0)
        ((market.max_revenue_withdraw_per_period -
          market.revenue_withdraw_since_last_settle : Nat) : Int))
        ((market.quote_max_insurance -
          market.quote_settled_insurance : Nat) : Int))
        ((vault - 1 : Nat) : Int)).toNat ∧
      m2.revenue_withdraw_since_last_settle =
        market.revenue_withdraw_since_last_settle + w ∧
      m2.quote_settled_insurance = market.quote_settled_insurance + w) ∧
    (∀ (bv vault : Nat) (bank : SpotMarket) (market : PerpMarket) (now : Int),
      ((if 0 < market.unrealized_max_imbalance then
          market.net_user_pnl - (market.unrealized_max_imbalance : Int)
        else 0) ≤ 0 ∨
        ((market.max_revenue_withdraw_per_period -
          market.revenue_withdraw_since_last_settle : Nat) : Int) ≤ 0 ∨
        ((market.quote_max_insurance -
          market.quote_settled_insurance : Nat) : Int) ≤ 0 ∨
        min (min (min
          (if 0 < market.unrealized_max_imbalance then
            market.net_user_pnl - (market.unrealized_max_imbalance : Int)
          else 0)
          ((market.max_revenue_withdraw_per_period -
            market.revenue_withdraw_since_last_settle : Nat) : Int))
          ((market.quote_max_insurance -
            market.quote_settled_insurance : Nat) : Int))
          ((vault - 1 : Nat) : Int) ≤ 0) →
      (resolve_perp_pnl_deficit bv vault bank market now).isOk = false) := by
  constructor
  · intro bv vault bank b2 market m2 now w h
    exact resolve_deficit_ok bv vault bank b2 market m2 now w h
  · intro bv vault bank market now hnp
    have hm : min (min (min
        (if 0 < market.unrealized_max_imbalance then
          market.net_user_pnl - (market.unrealized_max_imbalance : Int) else 0)
        ((market.max_revenue_withdraw_per_period -
          market.revenue_withdraw_since_last_settle : Nat) : Int))
        ((market.quote_max_insurance -
          market.quote_settled_insurance : Nat) : Int))
        ((vault - 1 : Nat) : Int) ≤ 0 := by
      rcases hnp with hA | hB | hC | hD
      · exact le_trans ((min_le_left _ _).trans
          ((min_le_left _ _).trans (min_le_left _ _))) hA
      · exact le_trans ((min_le_left _ _).trans
          ((min_le_left _ _).trans (min_le_right _ _))) hB
      · exact le_trans ((min_le_left _ _).trans (min_le_right _ _)) hC
      · exact hD
    cases hres : resolve_perp_pnl_deficit bv vault bank market now with
    | ok v s =>
      obtain ⟨b2, m2⟩ := s
      obtain ⟨h1, -, -, -⟩ :=
        resolve_deficit_ok bv vault bank b2 market m2 now v hres
      exact absurd h1 (not_lt.mpr hm)
    | err e s => rfl

/-- Perp market after the C6 draw of 15. -/
def perp_c6r : PerpMarket :=
  { perp_c6 with
    total_fee_minus_distributions := 10
    revenue_withdraw_since_last_settle := 55
    quote_settled_insurance := 25
    last_revenue_withdraw_ts := 9
    pnl_pool_token_amount := 15 }

set_option maxRecDepth 4000 in
/-- C6 witness: at bank_c6/perp_c6 with vault 100 the call succeeds with
draw 15 = min(15, 60, 40, 99) and both counters grow by 15. -/
theorem claim_c6_deficit_min_draw_witness :
    resolve_perp_pnl_deficit 0 100 bank_c6 perp_c6 9 =
      .ok 15 (bank_c6, perp_c6r) ∧
    (0 < min (min (min
      (if 0 < perp_c6.unrealized_max_imbalance then
        perp_c6.net_user_pnl - (perp_c6.unrealized_max_imbalance : Int) else 0)
      ((perp_c6.max_revenue_withdraw_per_period -
        perp_c6.revenue_withdraw_since_last_settle : Nat) : Int))
      ((perp_c6.quote_max_insurance -
        perp_c6.quote_settled_insurance : Nat) : Int))
      ((100 - 1 : Nat) : Int) ∧
    15 = (min (min (min
      (if 0 < perp_c6.unrealized_max_imbalance then
        perp_c6.net_user_pnl - (perp_c6.unrealized_max_imbalance : Int) else 0)
      ((perp_c6.max_revenue_withdraw_per_period -
        perp_c6.revenue_withdraw_since_last_settle : Nat) : Int))
      ((perp_c6.quote_max_insurance -
        perp_c6.quote_settled_insurance : Nat) : Int))
      ((100 - 1 : Nat) : Int)).toNat ∧
    perp_c6r.revenue_withdraw_since_last_settle =
      perp_c6.revenue_withdraw_since_last_settle + 15 ∧
    perp_c6r.quote_settled_insurance =
      perp_c6.quote_settled_insurance + 15) :=
  ⟨by decide,
    claim_c6_deficit_min_draw.1 0 100 bank_c6 bank_c6 perp_c6 perp_c6r 9 15
      (by decide)⟩

/-- On every outcome of the rebase prologue, the pool invariant
user_if_shares ≤ total_if_shares is preserved and the share base does not
decrease. -/
theorem apply_rebases_outcome (v : Nat) (a : Accounts)
    (r : CResult Accounts Unit) (h : apply_rebases v a = r) :
    (a.spot_market.user_if_shares ≤ a.spot_market.total_if_shares →
      r.state.spot_market.user_if_shares ≤
        r.state.spot_market.total_if_shares) ∧
    a.spot_market.if_shares_base ≤ r.state.spot_market.if_shares_base := by
  unfold apply_rebases at h
  split at h
  · rename_i e m1 hm
    subst h
    constructor
    · intro hinv
      have hi := apply_rebase_fund_inv v a.spot_market hinv
      rw [hm] at hi
      simpa [CResult.state] using hi
    · have hb := apply_rebase_fund_base_mono v a.spot_market
      rw [hm] at hb
      simpa [CResult.state] using hb
  · rename_i u m1 hm
    split at h
    · rename_i e st1 hst
      subst h
      constructor
      · intro hinv
        have hi := apply_rebase_fund_inv v a.spot_market hinv
        rw [hm] at hi
        simpa [CResult.state] using hi
      · have hb := apply_rebase_fund_base_mono v a.spot_market
        rw [hm] at hb
        simpa [CResult.state] using hb
    · rename_i u2 st1 hst
      subst h
      constructor
      · intro hinv
        have hi := apply_rebase_fund_inv v a.spot_market hinv
        rw [hm] at hi
        simpa [CResult.state] using hi
      · have hb := apply_rebase_fund_base_mono v a.spot_market
        rw [hm] at hb
        simpa [CResult.state] using hb

/-- The credit phase of a deposit never changes the pool's share base, on
any outcome. -/
theorem add_credit_base (amount v n : Nat) (cb : Int) (a1 : Accounts)
    (r : CResult Accounts Unit)
    (h : add_insurance_fund_stake_credit amount v n cb a1 = r) :
    r.state.spot_market.if_shares_base = a1.spot_market.if_shares_base := by
  unfold add_insurance_fund_stake_credit at h
  split at h
  · subst h
    simp [CResult.state]
  · rename_i st3 hst3
    split at h
    · subst h
      simp [CResult.state]
    · rename_i t ht
      split at h
      · subst h
        simp [CResult.state]
      · rename_i u2 hu2
        split at h
        · split at h
          · subst h
            simp [CResult.state]
          · rename_i cs hcs
            split at h
            · subst h
              simp [CResult.state]
            · rename_i vb hvb
              split at h
              · split at h
                · subst h
                  simp [CResult.state]
                · subst h
                  simp [CResult.state]
              · subst h
                simp [CResult.state]
        · subst h
          simp [CResult.state]

/-- A successful credit phase adds the minted shares to both pool share
counters. -/
theorem add_credit_ok (amount v n : Nat) (cb : Int) (a1 a2 : Accounts)
    (h : add_insurance_fund_stake_credit amount v n cb a1 = .ok () a2) :
    a2.spot_market.total_if_shares = a1.spot_market.total_if_shares + n ∧
    a2.spot_market.user_if_shares = a1.spot_market.user_if_shares + n := by
  unfold add_insurance_fund_stake_credit at h
  split at h
  · exact CResult.noConfusion h
  · rename_i st3 hst3
    split at h
    · exact CResult.noConfusion h
    · rename_i t ht
      have hte := checked_add_u128_some _ _ _ ht
      split at h
      · exact CResult.noConfusion h
      · rename_i u2 hu2
        have hue := checked_add_u128_some _ _ _ hu2
        split at h
        · split at h
          · exact CResult.noConfusion h
          · rename_i cs hcs
            split at h
            · exact CResult.noConfusion h
            · rename_i vb hvb
              split at h
              · split at h
                · exact CResult.noConfusion h
                · rename_i sq hsq
                  simp only [CResult.ok.injEq, true_and] at h
                  subst h
                  exact ⟨hte, hue⟩
              · exact CResult.noConfusion h
        · simp only [CResult.ok.injEq, true_and] at h
          subst h
          exact ⟨hte, hue⟩

/-- The stamp phase of a withdrawal request never touches the pool, on any
outcome. -/
theorem request_stamp_state (v amt cis : Nat) (a1 : Accounts) (now : Int)
    (r : CResult Accounts Unit)
    (h : request_remove_insurance_fund_stake_stamp v amt cis a1 now = r) :
    r.state.spot_market = a1.spot_market := by
  unfold request_remove_insurance_fund_stake_stamp at h
  split at h
  · split at h
    · split at h
      · subst h
        simp [CResult.state]
      · subst h
        simp [CResult.state]
    · subst h
      simp [CResult.state]
  · subst h
    simp [CResult.state]

/-- The burn phase of a cancellation never changes the pool's share base, on
any outcome. -/
theorem cancel_burn_base (v l : Nat) (a1 : Accounts) (now : Int)
    (r : CResult Accounts Unit)
    (h : cancel_request_remove_insurance_fund_stake_burn v l a1 now = r) :
    r.state.spot_market.if_shares_base = a1.spot_market.if_shares_base := by
  unfold cancel_request_remove_insurance_fund_stake_burn at h
  split at h
  · subst h
    simp [CResult.state]
  · rename_i st2 hdec
    split at h
    · subst h
      simp [CResult.state]
    · rename_i t ht
      split at h
      · subst h
        simp [CResult.state]
      · rename_i u2 hu2
        split at h
        · subst h
          simp [CResult.state]
        · rename_i isa hisa
          split at h
          · split at h
            · subst h
              simp [CResult.state]
            · subst h
              simp [CResult.state]
          · subst h
            simp [CResult.state]

/-- A successful burn phase subtracts the lost shares from both pool share
counters. -/
theorem cancel_burn_ok (v l : Nat) (a1 a2 : Accounts) (now : Int)
    (h : cancel_request_remove_insurance_fund_stake_burn v l a1 now =
      .ok () a2) :
    a2.spot_market.total_if_shares = a1.spot_market.total_if_shares - l ∧
    a2.spot_market.user_if_shares = a1.spot_market.user_if_shares - l := by
  unfold cancel_request_remove_insurance_fund_stake_burn at h
  split at h
  · exact CResult.noConfusion h
  · rename_i st2 hdec
    split at h
    · exact CResult.noConfusion h
    · rename_i t ht
      obtain ⟨hte, -⟩ := checked_sub_nat_some _ _ _ ht
      split at h
      · exact CResult.noConfusion h
      · rename_i u2 hu2
        obtain ⟨hue, -⟩ := checked_sub_nat_some _ _ _ hu2
        split at h
        · exact CResult.noConfusion h
        · rename_i isa hisa
          split at h
          · split at h
            · exact CResult.noConfusion h
            · rename_i sq hsq
              simp only [CResult.ok.injEq, true_and] at h
              subst h
              exact ⟨hte, hue⟩
          · simp only [CResult.ok.injEq, true_and] at h
            subst h
            exact ⟨hte, hue⟩

/-- The settle phase of a withdrawal never changes the pool's share base, on
any outcome. -/
theorem remove_settle_base (v amt : Nat) (a1 : Accounts) (now : Int)
    (r : CResult Accounts Nat)
    (h : remove_insurance_fund_stake_settle v amt a1 now = r) :
    r.state.spot_market.if_shares_base = a1.spot_market.if_shares_base := by
  unfold remove_insurance_fund_stake_settle at h
  split at h
  · subst h
    simp [CResult.state]
  · rename_i st2 hdec
    split at h
    · subst h
      simp [CResult.state]
    · rename_i wa hcast
      split at h
      · subst h
        simp [CResult.state]
      · rename_i cb hcb
        split at h
        · subst h
          simp [CResult.state]
        · rename_i t ht
          split at h
          · subst h
            simp [CResult.state]
          · rename_i u2 hu2
            split at h
            · split at h
              · subst h
                simp [CResult.state]
              · rename_i isa hisa
                split at h
                · subst h
                  simp [CResult.state]
                · rename_i vb hvb
                  split at h
                  · subst h
                    simp [CResult.state]
                  · rename_i sq hsq
                    subst h
                    simp [CResult.state]
            · subst h
              simp [CResult.state]

/-- The mint phase of a revenue settlement never changes the pool's share
base, on any outcome. -/
theorem settle_mint_base (k : RevenueConstants) (ifta v : Nat)
    (m : SpotMarket) (now : Int) (r : CResult SpotMarket Nat)
    (h : settle_revenue_to_insurance_fund_mint k ifta v m now = r) :
    r.state.if_shares_base = m.if_shares_base := by
  unfold settle_revenue_to_insurance_fund_mint at h
  split at h
  · subst h
    simp [CResult.state]
  · rename_i pif hpif
    split at h
    · subst h
      simp [CResult.state]
    · rename_i pf hpf
      split at h
      · subst h
        simp [CResult.state]
      · rename_i x hx
        split at h
        · subst h
          simp [CResult.state]
        · rename_i tf htf
          split at h
          · subst h
            simp [CResult.state]
          · rename_i y hy
            split at h
            · subst h
              simp [CResult.state]
            · rename_i ns hns
              split at h
              · subst h
                simp [CResult.state]
              · rename_i t ht
                split at h
                · subst h
                  simp [CResult.state]
                · rename_i rr hrr
                  subst h
                  simp [CResult.state]

/-- The draw phase of a deficit resolution never touches the bank, on any
outcome. -/
theorem resolve_draw_bank (iw : Int) (bank : SpotMarket) (market : PerpMarket)
    (now : Int) (r : CResult (SpotMarket × PerpMarket) Nat)
    (h : resolve_perp_pnl_deficit_draw iw bank market now = r) :
    r.state.1 = bank := by
  unfold resolve_perp_pnl_deficit_draw at h
  split at h
  · subst h
    simp [CResult.state]
  · rename_i tfmd htfmd
    split at h
    · subst h
      simp [CResult.state]
    · rename_i rv hrv
      split at h
      · subst h
        simp [CResult.state]
      · rename_i qs hqs
        split at h
        · split at h
          · subst h
            simp [CResult.state]
          · rename_i w2 hw2
            subst h
            simp [CResult.state]
        · subst h
          simp [CResult.state]

/-- The tail of a deficit resolution never touches the bank, on any
outcome. -/
theorem resolve_tail_bank (excess : Int) (vault : Nat) (bank : SpotMarket)
    (market : PerpMarket) (now : Int) (r : CResult (SpotMarket × PerpMarket) Nat)
    (h : (if 0 < excess then
        match checked_sub_nat market.max_revenue_withdraw_per_period
            market.revenue_withdraw_since_last_settle with
        | none => .err .MathError (bank, market)
        | some mrw0 =>
          match cast_to_i128_of_u128 mrw0 with
          | none => .err .MathError (bank, market)
          | some max_revenue_withdraw_per_period =>
            if 0 < max_revenue_withdraw_per_period then
              match checked_sub_nat market.quote_max_insurance
                  market.quote_settled_insurance with
              | none => .err .MathError (bank, market)
              | some miw0 =>
                match cast_to_i128_of_u128 miw0 with
                | none => .err .MathError (bank, market)
                | some max_insurance_withdraw =>
                  if 0 < max_insurance_withdraw then
                    if 0 < min (min (min excess
                          max_revenue_withdraw_per_period) max_insurance_withdraw)
                        ((vault - 1 : Nat) : Int) then
                      resolve_perp_pnl_deficit_draw
                        (min (min (min excess
                          max_revenue_withdraw_per_period) max_insurance_withdraw)
                        ((vault - 1 : Nat) : Int)) bank market now
                    else .err .DefaultError (bank, market)
                  else .err .DefaultError (bank, market)
            else .err .DefaultError (bank, market)
      else .err .DefaultError (bank, market)) = r) :
    r.state.1 = bank := by
  split at h
  · split at h
    · subst h
      simp [CResult.state]
    · rename_i mrw0 hmrw0
      split at h
      · subst h
        simp [CResult.state]
      · rename_i mrw hcm
        split at h
        · split at h
          · subst h
            simp [CResult.state]
          · rename_i miw0 hmiw0
            split at h
            · subst h
              simp [CResult.state]
            · rename_i miw hcm2
              split at h
              · split at h
                · exact resolve_draw_bank _ _ _ _ _ h
                · subst h
                  simp [CResult.state]
              · subst h
                simp [CResult.state]
        · subst h
          simp [CResult.state]
  · subst h
    simp [CResult.state]

/-- resolve_perp_pnl_deficit never touches the bank, on any outcome: the
spot-market state it returns is the one it was given. -/
theorem resolve_bank (bv vault : Nat) (bank : SpotMarket)
    (market : PerpMarket) (now : Int)
    (r : CResult (SpotMarket × PerpMarket) Nat)
    (h : resolve_perp_pnl_deficit bv vault bank market now = r) :
    r.state.1 = bank := by
  unfold resolve_perp_pnl_deficit at h
  split at h
  · split at h
    · by_cases hmi : 0 < market.unrealized_max_imbalance
      · rw [if_pos hmi] at h
        cases hci : cast_to_i128_of_u128 market.unrealized_max_imbalance with
        | none =>
          rw [hci] at h
          dsimp only at h
          subst h
          simp [CResult.state]
        | some mi =>
          rw [hci] at h
          dsimp only at h
          cases hcs : checked_sub_i128 market.net_user_pnl mi with
          | none =>
            rw [hcs] at h
            dsimp only at h
            subst h
            simp [CResult.state]
          | some excess =>
            rw [hcs] at h
            dsimp only at h
            exact resolve_tail_bank excess vault bank market now r h
      · rw [if_neg hmi] at h
        dsimp only at h
        exact resolve_tail_bank 0 vault bank market now r h
    · subst h
      simp [CResult.state]
  · subst h
    simp [CResult.state]

/-- A deposit never decreases the pool's share base, on any outcome. -/
theorem add_base_mono (amount v : Nat) (a : Accounts) (now : Int)
    (r : CResult Accounts Unit)
    (h : add_insurance_fund_stake amount v a now = r) :
    a.spot_market.if_shares_base ≤ r.state.spot_market.if_shares_base := by
  unfold add_insurance_fund_stake at h
  split at h
  · subst h
    simp [CResult.state]
  · split at h
    · rename_i e a1 hm
      subst h
      exact (apply_rebases_outcome v a _ hm).2
    · rename_i u a1 hm
      have hbase1 : a.spot_market.if_shares_base ≤
          a1.spot_market.if_shares_base := (apply_rebases_outcome v a _ hm).2
      split at h
      · subst h
        simpa [CResult.state] using hbase1
      · rename_i isb hisb
        split at h
        · subst h
          simpa [CResult.state] using hbase1
        · rename_i ns hns
          cases hcb : (if isb = 0 then cast_to_i64 amount
              else match cast_to_i64 amount with
                | none => none
                | some x => checked_add_i64 a1.stake.cost_basis x) with
          | none =>
            rw [hcb] at h
            dsimp only at h
            subst h
            simpa [CResult.state] using hbase1
          | some cb =>
            rw [hcb] at h
            dsimp only at h
            have hb := add_credit_base amount v ns cb a1 r h
            rw [hb]
            exact hbase1

/-- A successful deposit preserves user_if_shares ≤ total_if_shares. -/
theorem add_ok_inv (amount v : Nat) (a a2 : Accounts) (now : Int)
    (hinv : a.spot_market.user_if_shares ≤ a.spot_market.total_if_shares)
    (h : add_insurance_fund_stake amount v a now = .ok () a2) :
    a2.spot_market.user_if_shares ≤ a2.spot_market.total_if_shares := by
  unfold add_insurance_fund_stake at h
  split at h
  · exact CResult.noConfusion h
  · split at h
    · exact CResult.noConfusion h
    · rename_i u a1 hm
      have hinv1 : a1.spot_market.user_if_shares ≤
          a1.spot_market.total_if_shares :=
        (apply_rebases_outcome v a _ hm).1 hinv
      split at h
      · exact CResult.noConfusion h
      · rename_i isb hisb
        split at h
        · exact CResult.noConfusion h
        · rename_i ns hns
          cases hcb : (if isb = 0 then cast_to_i64 amount
              else match cast_to_i64 amount with
                | none => none
                | some x => checked_add_i64 a1.stake.cost_basis x) with
          | none =>
            rw [hcb] at h
            dsimp only at h
            exact CResult.noConfusion h
          | some cb =>
            rw [hcb] at h
            dsimp only at h
            obtain ⟨ht, hu⟩ := add_credit_ok amount v ns cb a1 a2 h
            rw [ht, hu]
            omega

/-- A withdrawal request never decreases the pool's share base, on any
outcome. -/
theorem request_base_mono (n v : Nat) (a : Accounts) (now : Int)
    (r : CResult Accounts Unit)
    (h : request_remove_insurance_fund_stake n v a now = r) :
    a.spot_market.if_shares_base ≤ r.state.spot_market.if_shares_base := by
  unfold request_remove_insurance_fund_stake at h
  split at h
  · rename_i e a1 hm
    subst h
    exact (apply_rebases_outcome v _ _ hm).2
  · rename_i u a1 hm
    have hbase1 : a.spot_market.if_shares_base ≤
        a1.spot_market.if_shares_base := (apply_rebases_outcome v _ _ hm).2
    split at h
    · subst h
      simpa [CResult.state] using hbase1
    · rename_i cis hcis
      split at h
      · split at h
        · split at h
          · subst h
            simpa [CResult.state] using hbase1
          · rename_i amt hamt
            have hs := request_stamp_state v amt cis a1 now r h
            rw [hs]
            exact hbase1
        · subst h
          simpa [CResult.state] using hbase1
      · subst h
        simpa [CResult.state] using hbase1

/-- A successful withdrawal request preserves
user_if_shares ≤ total_if_shares. -/
theorem request_ok_inv (n v : Nat) (a a2 : Accounts) (now : Int)
    (hinv : a.spot_market.user_if_shares ≤ a.spot_market.total_if_shares)
    (h : request_remove_insurance_fund_stake n v a now = .ok () a2) :
    a2.spot_market.user_if_shares ≤ a2.spot_market.total_if_shares := by
  unfold request_remove_insurance_fund_stake at h
  split at h
  · exact CResult.noConfusion h
  · rename_i u a1 hm
    have hinv1 : a1.spot_market.user_if_shares ≤
        a1.spot_market.total_if_shares := (apply_rebases_outcome v _ _ hm).1 hinv
    split at h
    · exact CResult.noConfusion h
    · rename_i cis hcis
      split at h
      · split at h
        · split at h
          · exact CResult.noConfusion h
          · rename_i amt hamt
            have hs : a2.spot_market = a1.spot_market :=
              request_stamp_state v amt cis a1 now _ h
            rw [hs]
            exact hinv1
        · exact CResult.noConfusion h
      · exact CResult.noConfusion h

/-- A cancellation never decreases the pool's share base, on any outcome. -/
theorem cancel_base_mono (v : Nat) (a : Accounts) (now : Int)
    (r : CResult Accounts Unit)
    (h : cancel_request_remove_insurance_fund_stake v a now = r) :
    a.spot_market.if_shares_base ≤ r.state.spot_market.if_shares_base := by
  unfold cancel_request_remove_insurance_fund_stake at h
  split at h
  · rename_i e a1 hm
    subst h
    exact (apply_rebases_outcome v a _ hm).2
  · rename_i u a1 hm
    have hbase1 : a.spot_market.if_shares_base ≤
        a1.spot_market.if_shares_base := (apply_rebases_outcome v a _ hm).2
    split at h
    · subst h
      simpa [CResult.state] using hbase1
    · rename_i cis hcis
      split at h
      · split at h
        · split at h
          · subst h
            simpa [CResult.state] using hbase1
          · rename_i l hl
            have hb := cancel_burn_base v l a1 now r h
            rw [hb]
            exact hbase1
        · subst h
          simpa [CResult.state] using hbase1
      · subst h
        simpa [CResult.state] using hbase1

/-- A successful cancellation preserves user_if_shares ≤ total_if_shares. -/
theorem cancel_ok_inv (v : Nat) (a a2 : Accounts) (now : Int)
    (hinv : a.spot_market.user_if_shares ≤ a.spot_market.total_if_shares)
    (h : cancel_request_remove_insurance_fund_stake v a now = .ok () a2) :
    a2.spot_market.user_if_shares ≤ a2.spot_market.total_if_shares := by
  unfold cancel_request_remove_insurance_fund_stake at h
  split at h
  · exact CResult.noConfusion h
  · rename_i u a1 hm
    have hinv1 : a1.spot_market.user_if_shares ≤
        a1.spot_market.total_if_shares := (apply_rebases_outcome v a _ hm).1 hinv
    split at h
    · exact CResult.noConfusion h
    · rename_i cis hcis
      split at h
      · split at h
        · split at h
          · exact CResult.noConfusion h
          · rename_i l hl
            obtain ⟨ht, hu⟩ := cancel_burn_ok v l a1 a2 now h
            rw [ht, hu]
            exact Nat.sub_le_sub_right hinv1 l
        · exact CResult.noConfusion h
      · exact CResult.noConfusion h

/-- A withdrawal settlement never decreases the pool's share base, on any
outcome. -/
theorem remove_base_mono (v : Nat) (a : Accounts) (now : Int)
    (r : CResult Accounts Nat)
    (h : remove_insurance_fund_stake v a now = r) :
    a.spot_market.if_shares_base ≤ r.state.spot_market.if_shares_base := by
  unfold remove_insurance_fund_stake at h
  split at h
  · subst h
    simp [CResult.state]
  · rename_i d hd
    split at h
    · subst h
      simp [CResult.state]
    · split at h
      · rename_i e a1 hm
        subst h
        exact (apply_rebases_outcome v a _ hm).2
      · rename_i u a1 hm
        have hbase1 : a.spot_market.if_shares_base ≤
            a1.spot_market.if_shares_base := (apply_rebases_outcome v a _ hm).2
        split at h
        · subst h
          simpa [CResult.state] using hbase1
        · rename_i isb hisb
          split at h
          · split at h
            · split at h
              · subst h
                simpa [CResult.state] using hbase1
              · rename_i amt hamt
                split at h
                · subst h
                  simpa [CResult.state] using hbase1
                · rename_i l hl
                  have hb := remove_settle_base v amt a1 now r h
                  rw [hb]
                  exact hbase1
            · subst h
              simpa [CResult.state] using hbase1
          · subst h
            simpa [CResult.state] using hbase1

/-- A successful withdrawal settlement preserves
user_if_shares ≤ total_if_shares. -/
theorem remove_ok_inv (v : Nat) (a a2 : Accounts) (now : Int) (w : Nat)
    (hinv : a.spot_market.user_if_shares ≤ a.spot_market.total_if_shares)
    (h : remove_insurance_fund_stake v a now = .ok w a2) :
    a2.spot_market.user_if_shares ≤ a2.spot_market.total_if_shares := by
  unfold remove_insurance_fund_stake at h
  split at h
  · exact CResult.noConfusion h
  · rename_i d hd
    split at h
    · exact CResult.noConfusion h
    · split at h
      · exact CResult.noConfusion h
      · rename_i u a1 hm
        have hinv1 : a1.spot_market.user_if_shares ≤
            a1.spot_market.total_if_shares :=
          (apply_rebases_outcome v a _ hm).1 hinv
        split at h
        · exact CResult.noConfusion h
        · rename_i isb hisb
          split at h
          · split at h
            · split at h
              · exact CResult.noConfusion h
              · rename_i amt hamt
                split at h
                · exact CResult.noConfusion h
                · rename_i l hl
                  obtain ⟨-, -, ht, hu, -, -, -, -, -⟩ :=
                    remove_settle_ok v amt a1 now w a2 h
                  rw [ht, hu]
                  exact Nat.sub_le_sub_right hinv1 _
            · exact CResult.noConfusion h
          · exact CResult.noConfusion h

/-- A revenue settlement never decreases the pool's share base, on any
outcome. -/
theorem settle_revenue_base_mono (k : RevenueConstants) (dc sv v : Nat)
    (m : SpotMarket) (now : Int) (r : CResult SpotMarket Nat)
    (h : settle_revenue_to_insurance_fund k dc sv v m now = r) :
    m.if_shares_base ≤ r.state.if_shares_base := by
  unfold settle_revenue_to_insurance_fund at h
  split at h
  · split at h
    · cases htok : (if 0 < m.user_if_shares then
          match capped_apr_amount k v m.revenue_settle_period with
          | none => none
          | some c => some (min (if dc < m.revenue_pool_token_amount
              then dc / 2 else m.revenue_pool_token_amount) c)
        else some (if dc < m.revenue_pool_token_amount
          then dc / 2 else m.revenue_pool_token_amount)) with
      | none =>
        rw [htok] at h
        dsimp only at h
        subst h
        simp [CResult.state]
      | some tok =>
        rw [htok] at h
        dsimp only at h
        split at h
        · subst h
          simp [CResult.state]
        · rename_i p hp
          split at h
          · subst h
            simp [CResult.state]
          · rename_i ifta hifta
            split at h
            · have hb := settle_mint_base k ifta v m now r h
              rw [hb]
            · subst h
              simp [CResult.state]
    · subst h
      simp [CResult.state]
  · subst h
    simp [CResult.state]

/-- A successful revenue settlement preserves
user_if_shares ≤ total_if_shares. -/
theorem settle_revenue_ok_inv (k : RevenueConstants) (dc sv v : Nat)
    (m m2 : SpotMarket) (now : Int) (w : Nat)
    (hinv : m.user_if_shares ≤ m.total_if_shares)
    (h : settle_revenue_to_insurance_fund k dc sv v m now = .ok w m2) :
    m2.user_if_shares ≤ m2.total_if_shares := by
  unfold settle_revenue_to_insurance_fund at h
  split at h
  · split at h
    · cases htok : (if 0 < m.user_if_shares then
          match capped_apr_amount k v m.revenue_settle_period with
          | none => none
          | some c => some (min (if dc < m.revenue_pool_token_amount
              then dc / 2 else m.revenue_pool_token_amount) c)
        else some (if dc < m.revenue_pool_token_amount
          then dc / 2 else m.revenue_pool_token_amount)) with
      | none =>
        rw [htok] at h
        dsimp only at h
        exact CResult.noConfusion h
      | some tok =>
        rw [htok] at h
        dsimp only at h
        split at h
        · exact CResult.noConfusion h
        · rename_i p hp
          split at h
          · exact CResult.noConfusion h
          · rename_i ifta hifta
            split at h
            · obtain ⟨-, hu, ht, -⟩ := settle_mint_ok _ _ _ _ _ _ _ h
              rw [hu]
              exact le_trans hinv ht
            · exact CResult.noConfusion h
    · exact CResult.noConfusion h
  · exact CResult.noConfusion h

/-- C7 counterexample: starting from a pool satisfying
user_if_shares ≤ total_if_shares (5 ≤ 10), a failing
remove_insurance_fund_stake burns the pending shares from the total before
failing the depositor-share subtraction, leaving a state with
user_if_shares = 5 > total_if_shares = 3: the invariant does not survive
every failure. -/
theorem claim_c7_invariant_counterexample :
    acct_c7.spot_market.user_if_shares ≤
      acct_c7.spot_market.total_if_shares ∧
    (remove_insurance_fund_stake 10 acct_c7 100).isOk = false ∧
    ¬ (remove_insurance_fund_stake 10 acct_c7
        100).state.spot_market.user_if_shares ≤
      (remove_insurance_fund_stake 10 acct_c7
        100).state.spot_market.total_if_shares := by
  decide

/-- C7 (amended): every SUCCESSFUL operation of the core applied to a state
with user_if_shares ≤ total_if_shares returns a state still satisfying it,
the rebase prologue preserves it on every outcome, resolve_perp_pnl_deficit
returns the pool untouched on every outcome, and no operation ever decreases
the pool's if_shares_base on any outcome; but a FAILING operation can leave
the invariant broken (see the counterexample: a failing settle burns from
the total before the depositor-share subtraction fails). -/
theorem claim_c7_share_invariants :
    (∀ (amount v : Nat) (a a2 : Accounts) (now : Int),
      a.spot_market.user_if_shares ≤ a.spot_market.total_if_shares →
      add_insurance_fund_stake amount v a now = .ok () a2 →
      a2.spot_market.user_if_shares ≤ a2.spot_market.total_if_shares) ∧
    (∀ (n v : Nat) (a a2 : Accounts) (now : Int),
      a.spot_market.user_if_shares ≤ a.spot_market.total_if_shares →
      request_remove_insurance_fund_stake n v a now = .ok () a2 →
      a2.spot_market.user_if_shares ≤ a2.spot_market.total_if_shares) ∧
    (∀ (v : Nat) (a a2 : Accounts) (now : Int),
      a.spot_market.user_if_shares ≤ a.spot_market.total_if_shares →
      cancel_request_remove_insurance_fund_stake v a now = .ok () a2 →
      a2.spot_market.user_if_shares ≤ a2.spot_market.total_if_shares) ∧
    (∀ (v : Nat) (a a2 : Accounts) (now : Int) (w : Nat),
      a.spot_market.user_if_shares ≤ a.spot_market.total_if_shares →
      remove_insurance_fund_stake v a now = .ok w a2 →
      a2.spot_market.user_if_shares ≤ a2.spot_market.total_if_shares) ∧
    (∀ (k : RevenueConstants) (dc sv v : Nat) (m m2 : SpotMarket) (now : Int)
        (w : Nat),
      m.user_if_shares ≤ m.total_if_shares →
      settle_revenue_to_insurance_fund k dc sv v m now = .ok w m2 →
      m2.user_if_shares ≤ m2.total_if_shares) ∧
    (∀ (bv v : Nat) (bank : SpotMarket) (market : PerpMarket) (now : Int)
        (r : CResult (SpotMarket × PerpMarket) Nat),
      resolve_perp_pnl_deficit bv v bank market now = r →
      r.state.1 = bank) ∧
    (∀ (v : Nat) (m : SpotMarket),
      m.user_if_shares ≤ m.total_if_shares →
      (apply_rebase_to_insurance_fund v m).state.user_if_shares ≤
        (apply_rebase_to_insurance_fund v m).state.total_if_shares) ∧
    (∀ (v : Nat) (m : SpotMarket),
      m.if_shares_base ≤
        (apply_rebase_to_insurance_fund v m).state.if_shares_base) ∧
    (∀ (amount v : Nat) (a : Accounts) (now : Int)
        (r : CResult Accounts Unit),
      add_insurance_fund_stake amount v a now = r →
      a.spot_market.if_shares_base ≤ r.state.spot_market.if_shares_base) ∧
    (∀ (n v : Nat) (a : Accounts) (now : Int) (r : CResult Accounts Unit),
      request_remove_insurance_fund_stake n v a now = r →
      a.spot_market.if_shares_base ≤ r.state.spot_market.if_shares_base) ∧
    (∀ (v : Nat) (a : Accounts) (now : Int) (r : CResult Accounts Unit),
      cancel_request_remove_insurance_fund_stake v a now = r →
      a.spot_market.if_shares_base ≤ r.state.spot_market.if_shares_base) ∧
    (∀ (v : Nat) (a : Accounts) (now : Int) (r : CResult Accounts Nat),
      remove_insurance_fund_stake v a now = r →
      a.spot_market.if_shares_base ≤ r.state.spot_market.if_shares_base) ∧
    (∀ (k : RevenueConstants) (dc sv v : Nat) (m : SpotMarket) (now : Int)
        (r : CResult SpotMarket Nat),
      settle_revenue_to_insurance_fund k dc sv v m now = r →
      m.if_shares_base ≤ r.state.if_shares_base) := by
  refine ⟨?_, ?_, ?_, ?_, ?_, ?_, ?_, ?_, ?_, ?_, ?_, ?_, ?_⟩
  · intro amount v a a2 now hinv h
    exact add_ok_inv amount v a a2 now hinv h
  · intro n v a a2 now hinv h
    exact request_ok_inv n v a a2 now hinv h
  · intro v a a2 now hinv h
    exact cancel_ok_inv v a a2 now hinv h
  · intro v a a2 now w hinv h
    exact remove_ok_inv v a a2 now w hinv h
  · intro k dc sv v m m2 now w hinv h
    exact settle_revenue_ok_inv k dc sv v m m2 now w hinv h
  · intro bv v bank market now r h
    exact resolve_bank bv v bank market now r h
  · intro v m hinv
    exact apply_rebase_fund_inv v m hinv
  · intro v m
    exact apply_rebase_fund_base_mono v m
  · intro amount v a now r h
    exact add_base_mono amount v a now r h
  · intro n v a now r h
    exact request_base_mono n v a now r h
  · intro v a now r h
    exact cancel_base_mono v a now r h
  · intro v a now r h
    exact remove_base_mono v a now r h
  · intro k dc sv v m now r h
    exact settle_revenue_base_mono k dc sv v m now r h

/-- Result of the C7 witness deposit: a first 7-token stake into an empty
pool that re-seeds to 10 total shares before crediting. -/
def acct_c7wr : Accounts :=
  { stake :=
      { if_shares := 7, if_base := 0, cost_basis := 7,
        last_withdraw_request_shares := 0, last_withdraw_request_value := 0,
        last_withdraw_request_ts := 0 }
    user_stats := { staked_quote_asset_amount := 0 }
    spot_market :=
      { acct_c7w.spot_market with
        total_if_shares := 17
        user_if_shares := 7 } }

/-- C7 witness: the successful deposit at acct_c7w takes 0 ≤ 0 to 7 ≤ 17. -/
theorem claim_c7_share_invariants_witness :
    acct_c7w.spot_market.user_if_shares ≤
      acct_c7w.spot_market.total_if_shares ∧
    add_insurance_fund_stake 7 10 acct_c7w 0 = .ok () acct_c7wr ∧
    acct_c7wr.spot_market.user_if_shares ≤
      acct_c7wr.spot_market.total_if_shares :=
  ⟨by decide, by decide,
    claim_c7_share_invariants.1 7 10 acct_c7w acct_c7wr 0 (by decide)
      (by decide)⟩
